import Mathlib

/-!
Shallow embedding of the SignalProcessorCpp core (src/src/core, src/src/gen,
src/src/proc) over an arbitrary linear ordered field with floor/ceiling.
Double arithmetic is modelled by exact field arithmetic; the transcendental
library calls (sin, cos, tan, sqrt) and the constant pi are abstracted into a
`RealOps` record so that the development can be instantiated both at `ℝ`
(with the genuine functions) and at `ℚ` (for concrete evaluation of the
trigonometry-free control flow).  C++ exceptions (`SignalProcessingError`,
`std::out_of_range`, `std::bad_optional_access` and dereferencing an empty
`std::optional`) are modelled by `Except SPError`.  The cosmetic string
labels (xLabel, yLabel, graphLabel) carried by the C++ structures are
omitted: no computation ever reads them.
-/

namespace SigProc

/-- Error conditions raised by the C++ code (all thrown synchronously). -/
inductive SPError where
  | invalidParameter
  | nullReference
  | incompatibleSignals
  | insufficientPoints
  | unsupportedMethod
  | notExecuted
  | outOfRange
  | emptyOptional
deriving DecidableEq, Repr

/-- Model of `struct Point` from TSignalLine.hpp: an (x, y) pair. -/
structure Pt (α : Type) where
  x : α
  y : α
deriving DecidableEq, Repr

/-- Model of `struct TSignalLineParams` (TSignalLine.hpp, lines 111-156).
String labels are omitted; every other field is kept, including the two
mutable cache fields maxValue / minValue. -/
structure TSignalLineParams (α : Type) where
  samplingFrequency : Option α
  duration : Option α
  oscillationFrequency : Option α
  initPhase : Option α
  offsetY : Option α
  amplitude : Option α
  pointsCount : Nat
  normalizeFactor : Option α
  maxValue : Option α
  minValue : Option α
deriving DecidableEq, Repr

variable {α : Type} [LinearOrderedField α] [FloorRing α]

/-- SL::DEFAULT_INACCURACY = 1e-9 (TSignalLine.hpp). -/
def DEFAULT_INACCURACY : α := 1 / 1000000000

/-- std::numeric_limits<double>::epsilon() = 2^-52, used by the cotangent
generator branch. -/
def dblEpsilon : α := 1 / 4503599627370496

/-- Default-initialized `TSignalLineParams` (the member initializers of the
C++ struct): samplingFrequency 100, duration 1, oscillationFrequency 1,
initPhase 0, offsetY 0, amplitude 1, pointsCount 0, normalizeFactor 1,
caches empty.  Note that every optional field is initialized ENGAGED. -/
def defaultParams : TSignalLineParams α :=
  { samplingFrequency := some 100
    duration := some 1
    oscillationFrequency := some 1
    initPhase := some 0
    offsetY := some 0
    amplitude := some 1
    pointsCount := 0
    normalizeFactor := some 1
    maxValue := none
    minValue := none }

/-- Model of `enum class SL::Preference`. -/
inductive Preference where
  | auto
  | preferPointsCount
  | preferDurationAndSamplingFreq
deriving DecidableEq, Repr

/-- Model of `class TSignalLine`: the point vector plus the parameter
record. -/
structure TSignalLine (α : Type) where
  points : List (Pt α)
  params : TSignalLineParams α
deriving DecidableEq, Repr

/-- pointsCount computation of the (samplingFrequency, duration) constructor:
`static_cast<std::size_t>(ceil(duration * samplingFrequency + 1))`
(TSignalLine.cpp lines 56-57). -/
def pointsCountFrom (samplingFrequency duration : α) : Nat :=
  (Int.ceil (duration * samplingFrequency + 1)).toNat

namespace TSignalLine

/-- Constructor `TSignalLine(double samplingFrequency, double duration, ...)`
(TSignalLine.cpp lines 25-59).  Fails when duration or samplingFrequency is
not positive; allocates `pointsCountFrom` zero points; the caches stay
empty. -/
def ofSamplingAndDuration (samplingFrequency duration : α)
    (oscillationFrequency initPhase offsetY amplitude normalizeFactor :
      Option α) :
    Except SPError (TSignalLine α) :=
  if duration ≤ 0 then .error .invalidParameter
  else if samplingFrequency ≤ 0 then .error .invalidParameter
  else .ok
    { points := List.replicate (pointsCountFrom samplingFrequency duration)
        ⟨0, 0⟩
      params :=
        { samplingFrequency := some samplingFrequency
          duration := some duration
          oscillationFrequency := oscillationFrequency
          initPhase := initPhase
          offsetY := offsetY
          amplitude := amplitude
          pointsCount := pointsCountFrom samplingFrequency duration
          normalizeFactor := normalizeFactor
          maxValue := none
          minValue := none } }

/-- Constructor `TSignalLine(std::size_t pointsCount, ...)` (TSignalLine.cpp
lines 61-70).  Only pointsCount is assigned; every other parameter keeps its
engaged member-initializer default. -/
def ofPointsCount (pointsCount : Nat) : TSignalLine α :=
  { points := List.replicate pointsCount ⟨0, 0⟩
    params := { (defaultParams : TSignalLineParams α) with
                  pointsCount := pointsCount } }

/-- Constructor `TSignalLine(TSignalLineParams params, preference)`
(TSignalLine.cpp lines 72-99).  The `Auto` and
`PreferDurationAndSamplingFreq` branches dereference `*params.duration` and
`*params.samplingFrequency` (undefined behaviour when absent, modelled as
`emptyOptional`) and recompute pointsCount; `PreferPointsCount` keeps the
given pointsCount.  The points are freshly allocated zeroes. -/
def ofParams (params : TSignalLineParams α) (preference : Option Preference) :
    Except SPError (TSignalLine α) :=
  match preference.getD .auto with
  | .auto | .preferDurationAndSamplingFreq =>
    match params.duration, params.samplingFrequency with
    | some d, some sf =>
      if d ≤ 0 then .error .invalidParameter
      else if sf ≤ 0 then .error .invalidParameter
      else .ok
        { points := List.replicate (pointsCountFrom sf d) ⟨0, 0⟩
          params := { params with pointsCount := pointsCountFrom sf d } }
    | _, _ => .error .emptyOptional
  | .preferPointsCount =>
    .ok { points := List.replicate params.pointsCount ⟨0, 0⟩
          params := params }

/-- Copy constructor `TSignalLine(const TSignalLine*, offsetX, offsetY)`
(TSignalLine.cpp lines 101-119): copies the parameter record, erases
offsetY, and copies the first pointsCount points shifted by the offsets
(reading past the stored points throws, modelled as `outOfRange`). -/
def ofCopyWithOffset (source : TSignalLine α) (offsetX offsetY : α) :
    Except SPError (TSignalLine α) :=
  if source.params.pointsCount ≤ source.points.length then
    .ok { points := (source.points.take source.params.pointsCount).map
            (fun p => ⟨p.x + offsetX, p.y + offsetY⟩)
          params := { source.params with offsetY := none } }
  else .error .outOfRange

/-- `getPoint` (TSignalLine.cpp lines 132-134); `std::vector::at` bounds
check. -/
def getPointE (sl : TSignalLine α) (i : Nat) : Except SPError (Pt α) :=
  match sl.points[i]? with
  | some p => .ok p
  | none => .error .outOfRange

/-- `setPoint` (TSignalLine.cpp lines 121-126); `std::vector::at` bounds
check. -/
def setPointE (sl : TSignalLine α) (i : Nat) (xCoord yCoord : α) :
    Except SPError (TSignalLine α) :=
  if i < sl.points.length then
    .ok { sl with points := sl.points.set i ⟨xCoord, yCoord⟩ }
  else .error .outOfRange

/-- `areCloseX` (TSignalLine.cpp lines 211-221): with an engaged inaccuracy,
reject a negative one and compare |x1 - x2| ≤ inaccuracy; with no inaccuracy
compare exactly. -/
def areCloseX (point1 point2 : Pt α) (inaccuracy : Option α) :
    Except SPError Bool :=
  match inaccuracy with
  | some t =>
    if t < 0 then .error .invalidParameter
    else .ok (|point1.x - point2.x| ≤ t)
  | none => .ok (point1.x = point2.x)

/-- `equals` (TSignalLine.cpp lines 140-163).  Counts compared first (false,
no inaccuracy validation, when they differ); then the first points are
fetched and compared; the last points are fetched and compared only when the
first comparison succeeded (C++ `&&` short-circuits). -/
def equalsE (sl other : TSignalLine α) (inaccuracy : Option α) :
    Except SPError Bool :=
  if sl.params.pointsCount ≠ other.params.pointsCount then .ok false
  else do
    let p0 ← sl.getPointE 0
    let q0 ← other.getPointE 0
    let b1 ← areCloseX p0 q0 inaccuracy
    if b1 then do
      let p1 ← sl.getPointE (sl.params.pointsCount - 1)
      let q1 ← other.getPointE (sl.params.pointsCount - 1)
      areCloseX p1 q1 inaccuracy
    else pure false

/-- `findByComparison` with `std::greater` = `findMax(false)` (TSignalLine.cpp
lines 165-167, 188-205): return the cached value when present, otherwise
scan all y values starting from `_points[0].y` (reading `_points[0]` of an
empty vector is undefined behaviour, modelled as `outOfRange`) and cache the
result. -/
def findMaxE (sl : TSignalLine α) : Except SPError (α × TSignalLine α) :=
  match sl.params.maxValue with
  | some v => .ok (v, sl)
  | none =>
    match sl.points with
    | [] => .error .outOfRange
    | p :: _ =>
      let v := sl.points.foldl (fun acc q => if q.y > acc then q.y else acc)
        p.y
      .ok (v, { sl with params := { sl.params with maxValue := some v } })

/-- `findByComparison` with `std::less` = `findMin(false)` (TSignalLine.cpp
lines 169-171, 188-205). -/
def findMinE (sl : TSignalLine α) : Except SPError (α × TSignalLine α) :=
  match sl.params.minValue with
  | some v => .ok (v, sl)
  | none =>
    match sl.points with
    | [] => .error .outOfRange
    | p :: _ =>
      let v := sl.points.foldl (fun acc q => if q.y < acc then q.y else acc)
        p.y
      .ok (v, { sl with params := { sl.params with minValue := some v } })

/-- `removeDCComponent` (TSignalLine.cpp lines 173-184): compute max and min
(updating the caches), dereference `*inaccuracy` (undefined behaviour when
absent), and when |min| falls outside [|max| - inaccuracy, |max| + inaccuracy]
shift every point's y down by (max + min)/2.  The caches are NOT invalidated
by the shift (the known stale-cache quirk). -/
def removeDCComponent (sl : TSignalLine α) (inaccuracy : Option α) :
    Except SPError (TSignalLine α) := do
  let (mx, sl1) ← findMaxE sl
  let (mn, sl2) ← findMinE sl1
  match inaccuracy with
  | none => .error .emptyOptional
  | some t =>
    if |mn| < |mx| - t ∨ |mn| > |mx| + t then
      (List.range sl2.params.pointsCount).foldlM
        (fun acc i => do
          let p ← acc.getPointE i
          acc.setPointE i p.x (p.y - (mx + mn) / 2)) sl2
    else pure sl2

end TSignalLine

/-- Abstraction of the transcendental double library calls used by the code
(sin, cos, tan from <cmath>, sqrt, and the constant M_PI). -/
structure RealOps (α : Type) where
  sin : α → α
  cos : α → α
  tan : α → α
  sqrt : α → α
  pi : α

/-- Model of `enum class GEN::GenerationMethod`. -/
inductive GenerationMethod where
  | sineWave
  | cosineWave
  | tangentWave
  | cotangentWave
deriving DecidableEq, Repr

/-- Model of `struct TGeneratorParams` (TGenerator.hpp; labels omitted). -/
structure TGeneratorParams (α : Type) where
  samplingFreq : α
  duration : α
  oscillationFreq : α
  initPhase : α
  offsetY : α
  amplitude : α
  method : GenerationMethod
  clampValue : Option α
deriving DecidableEq, Repr

/-- Member-initializer defaults of `TGeneratorParams`: samplingFreq 100,
duration 1, oscillationFreq 1, initPhase 0, offsetY 0, amplitude 1, method
SineWave, clampValue 10. -/
def defaultGenParams : TGeneratorParams α :=
  { samplingFreq := 100
    duration := 1
    oscillationFreq := 1
    initPhase := 0
    offsetY := 0
    amplitude := 1
    method := .sineWave
    clampValue := some 10 }

namespace TGenerator

/-- Constructor `TGenerator(TGeneratorParams)` (TGenerator.cpp lines 84-118):
validate the clamp value for tangent/cotangent, then build the pre-execute
signal line from these parameters (normalizeFactor is set to
GEN::DEFAULT_NORMALIZE_FACTOR_SIN = TWO_PI for every method) through the
TSignalLineParams constructor with the default Auto preference. -/
def checkClamp (method : GenerationMethod) (clampValue : Option α) :
    Except SPError Unit :=
  match method with
  | .tangentWave | .cotangentWave =>
    match clampValue with
    | none => .error .invalidParameter
    | some c => if c < 0 then .error .invalidParameter else pure ()
  | _ => pure ()

def make (ops : RealOps α) (p : TGeneratorParams α) :
    Except SPError (TSignalLine α) := do
  checkClamp p.method p.clampValue
  TSignalLine.ofParams
    { samplingFrequency := some p.samplingFreq
      duration := some p.duration
      oscillationFrequency := some p.oscillationFreq
      initPhase := some p.initPhase
      offsetY := some p.offsetY
      amplitude := some p.amplitude
      pointsCount := 0
      normalizeFactor := some (2 * ops.pi)
      maxValue := none
      minValue := none } none

/-- Clamping used by the tangent and cotangent branches (TGenerator.cpp lines
192-196 and 226-230): values above clampValue are replaced by it, values
below -clampValue by -clampValue. -/
def clampTo (c v : α) : α :=
  if v > c then c else if v < -c then -c else v

/-- The y value computed for sample index i by `TGenerator::execute`
(TGenerator.cpp lines 152-243), per generation method.  For the cotangent
the clamp value is known present (checked by the constructor); the C++
dereference `*_params.clampValue` is rendered as `getD 0`, the branch with an
absent clamp being unreachable after `make` succeeds. -/
def yValue (ops : RealOps α) (p : TGeneratorParams α) (i : Nat) : α :=
  let twoPiFreq := 2 * ops.pi * p.oscillationFreq / p.samplingFreq
  let arg := twoPiFreq * (i : α) + p.initPhase
  let c := p.clampValue.getD 0
  match p.method with
  | .sineWave => p.amplitude * ops.sin arg + p.offsetY
  | .cosineWave => p.amplitude * ops.cos arg + p.offsetY
  | .tangentWave => clampTo c (p.amplitude * ops.tan arg) + p.offsetY
  | .cotangentWave =>
    let tanValue := p.amplitude * ops.tan arg
    let y0 :=
      if |tanValue| < dblEpsilon then c * (if tanValue > 0 then 1 else -1)
      else p.amplitude * (1 / tanValue)
    clampTo c y0 + p.offsetY

/-- `TGenerator` construction followed by `execute` (TGenerator.cpp lines
152-243): every sample index i of the allocated buffer is set to
(i / samplingFreq, yValue i). -/
def execute (ops : RealOps α) (p : TGeneratorParams α) :
    Except SPError (TSignalLine α) := do
  let sl ← make ops p
  (List.range sl.params.pointsCount).foldlM
    (fun acc i => acc.setPointE i ((i : α) / p.samplingFreq) (yValue ops p i))
    sl

end TGenerator

/-- The y value the claim assigns to the cotangent wave away from the
near-zero-tangent guard, transcribed from the claim's wording (`y =
f(2*pi*freq*i/fs + phase)*amplitude + offset` with f the reciprocal of the
tangent, clamped before the offset is added).  Stated only to be compared
against `TGenerator.yValue`, the value the code computes. -/
def claimC3CotangentY (ops : RealOps α) (p : TGeneratorParams α) (i : Nat) :
    α :=
  let arg := 2 * ops.pi * p.oscillationFreq / p.samplingFreq * (i : α) +
    p.initPhase
  TGenerator.clampTo (p.clampValue.getD 0) (1 / ops.tan arg * p.amplitude) +
    p.offsetY

namespace TSummator

/-- `TSummator::execute` (TSummator.cpp lines 71-98): null checks, the
`equals` compatibility gate, a fresh output buffer built from the first
input's parameter record (Auto preference), then the pointwise sum over the
first input's pointsCount indices, x taken from the first input. -/
def execute (signalLine1 signalLine2 : Option (TSignalLine α))
    (inaccuracy : Option α) : Except SPError (TSignalLine α) :=
  match signalLine1, signalLine2 with
  | some a, some b => do
    let eq ← a.equalsE b inaccuracy
    if eq then do
      let out ← TSignalLine.ofParams a.params none
      (List.range a.params.pointsCount).foldlM
        (fun acc i => do
          let p ← a.getPointE i
          let q ← b.getPointE i
          acc.setPointE i p.x (p.y + q.y)) out
    else .error .incompatibleSignals
  | _, _ => .error .nullReference

end TSummator

namespace TMultiplier

/-- `TMultiplier::execute` (TMultiplier.cpp lines 76-103): identical to the
summator except that the y values are multiplied. -/
def execute (signalLine1 signalLine2 : Option (TSignalLine α))
    (inaccuracy : Option α) : Except SPError (TSignalLine α) :=
  match signalLine1, signalLine2 with
  | some a, some b => do
    let eq ← a.equalsE b inaccuracy
    if eq then do
      let out ← TSignalLine.ofParams a.params none
      (List.range a.params.pointsCount).foldlM
        (fun acc i => do
          let p ← a.getPointE i
          let q ← b.getPointE i
          acc.setPointE i p.x (p.y * q.y)) out
    else .error .incompatibleSignals
  | _, _ => .error .nullReference

end TMultiplier

/-- Model of `enum class INT::IntegrationMethod`. -/
inductive IntegrationMethod where
  | trapezoidal
  | simpson
  | boole
deriving DecidableEq, Repr

namespace TIntegrator

/-- `TIntegrator::execute` (TIntegrator.cpp lines 42-123).  Null and
fewer-than-2-points checks, then per method: trapezoidal sums over i in
[1, pointsCount); Simpson requires an odd count and sums over
i = 1, 3, ... while i < pointsCount - 1; Boole requires count ≡ 1 mod 4 and
sums over i = 0, 4, ... while i < pointsCount - 4.  Point accesses go
through the bounds-checked getPoint. -/
def execute (signalLine : Option (TSignalLine α)) (method : IntegrationMethod) :
    Except SPError α :=
  match signalLine with
  | none => .error .nullReference
  | some s =>
    if s.params.pointsCount < 2 then .error .insufficientPoints
    else
      let n := s.params.pointsCount
      match method with
      | .trapezoidal =>
        (List.range' 1 (n - 1)).foldlM
          (fun acc i => do
            let p ← s.getPointE (i - 1)
            let q ← s.getPointE i
            pure (acc + (p.y + q.y) / 2 * (q.x - p.x))) 0
      | .simpson =>
        if n % 2 = 0 then .error .insufficientPoints
        else
          (List.range' 1 ((n - 1) / 2) 2).foldlM
            (fun acc i => do
              let p ← s.getPointE (i - 1)
              let m ← s.getPointE i
              let q ← s.getPointE (i + 1)
              pure (acc + (q.x - p.x) / 6 * (p.y + 4 * m.y + q.y))) 0
      | .boole =>
        if n % 4 ≠ 1 then .error .insufficientPoints
        else
          (List.range' 0 ((n - 4 + 3) / 4) 4).foldlM
            (fun acc i => do
              let p0 ← s.getPointE i
              let p1 ← s.getPointE (i + 1)
              let p2 ← s.getPointE (i + 2)
              let p3 ← s.getPointE (i + 3)
              let p4 ← s.getPointE (i + 4)
              pure (acc + (p4.x - p0.x) / 90 *
                (7 * p0.y + 32 * p1.y + 12 * p2.y + 32 * p3.y + 7 * p4.y))) 0

end TIntegrator

namespace TRMS

/-- `TRMS::execute` (TRMS.cpp lines 45-68): null check, duration-presence
check, square the signal with a Multiplier (default inaccuracy), integrate
with the default trapezoidal Integrator, divide by the duration and take the
square root. -/
def execute (ops : RealOps α) (signalLine : Option (TSignalLine α)) :
    Except SPError α :=
  match signalLine with
  | none => .error .nullReference
  | some s =>
    match s.params.duration with
    | none => .error .invalidParameter
    | some d => do
      let squared ← TMultiplier.execute (some s) (some s)
        (some DEFAULT_INACCURACY)
      let power ← TIntegrator.execute (some squared) .trapezoidal
      pure (ops.sqrt (power / d))

end TRMS

namespace TCorrelator

/-- `TCorrelator::execute` (TCorrelator.cpp lines 48-89): null checks,
duration-presence checks on both inputs, raw correlation = trapezoidal
integral of the product divided by the FIRST input's duration; when
performNormalization (default COR::DEFAULT_PERFORM_NORMALIZATION = true)
holds, divide the raw value by the product of the two inputs' RMS values. -/
def execute (ops : RealOps α) (signalLine1 signalLine2 : Option (TSignalLine α))
    (performNormalization : Option Bool) : Except SPError α :=
  match signalLine1, signalLine2 with
  | some s1, some s2 =>
    match s1.params.duration, s2.params.duration with
    | some d1, some _ => do
      let product ← TMultiplier.execute (some s1) (some s2)
        (some DEFAULT_INACCURACY)
      let integral ← TIntegrator.execute (some product) .trapezoidal
      let rawCorrelation := integral / d1
      if performNormalization.getD true then do
        let r1 ← TRMS.execute ops (some s1)
        let r2 ← TRMS.execute ops (some s2)
        pure (rawCorrelation / (r1 * r2))
      else pure rawCorrelation
    | _, _ => .error .invalidParameter
  | _, _ => .error .nullReference

end TCorrelator

/-- Model of `enum class DifferentiationMethod`. -/
inductive DifferentiationMethod where
  | centralOnly
  | centralAndEdges
deriving DecidableEq, Repr

namespace TDifferentiator

/-- The normalize factor selection of `TDifferentiator::execute`
(TDifferentiator.cpp lines 88-91): `normalizeFactor.value()` when
performNormalization holds (dereferencing an absent optional is undefined
behaviour, modelled as emptyOptional), 1.0 otherwise. -/
def normFactor (performNormalization : Bool) (params : TSignalLineParams α) :
    Except SPError α :=
  if performNormalization then
    match params.normalizeFactor with
    | some v => pure v
    | none => .error .emptyOptional
  else pure 1

/-- `TDifferentiator::execute` (TDifferentiator.cpp lines 78-157): null and
fewer-than-2-points checks; normalizeFactor is dereferenced from the input's
parameter record when performNormalization holds (undefined behaviour when
absent, modelled as emptyOptional) and 1.0 otherwise; the output buffer is
built with PreferPointsCount and pointsCount - 2 (CentralOnly) or pointsCount
(CentralAndEdges) points; then the central/one-sided difference quotients are
written.  Every written point stores the x of the LEFT point of its stencil. -/
def execute (signalLine : Option (TSignalLine α)) (performNormalization : Bool)
    (method : DifferentiationMethod) : Except SPError (TSignalLine α) :=
  match signalLine with
  | none => .error .nullReference
  | some s =>
    if s.params.pointsCount < 2 then .error .insufficientPoints
    else do
      let nf ← normFactor performNormalization s.params
      let n := s.params.pointsCount
      let outCount := match method with
        | .centralAndEdges => n
        | .centralOnly => n - 2
      let out ← TSignalLine.ofParams { s.params with pointsCount := outCount }
        (some .preferPointsCount)
      match method with
      | .centralAndEdges => do
        let p0 ← s.getPointE 0
        let p1 ← s.getPointE 1
        let o1 ← out.setPointE 0 p0.x ((p1.y - p0.y) / (p1.x - p0.x) / nf)
        let q0 ← s.getPointE (n - 2)
        let q1 ← s.getPointE (n - 1)
        let o2 ← o1.setPointE (n - 1) q0.x ((q1.y - q0.y) / (q1.x - q0.x) / nf)
        (List.range' 1 (n - 2)).foldlM
          (fun acc i => do
            let a ← s.getPointE (i - 1)
            let b ← s.getPointE (i + 1)
            acc.setPointE i a.x ((b.y - a.y) / (b.x - a.x) / nf)) o2
      | .centralOnly =>
        (List.range' 1 (n - 2)).foldlM
          (fun acc i => do
            let a ← s.getPointE (i - 1)
            let b ← s.getPointE (i + 1)
            acc.setPointE (i - 1) a.x ((b.y - a.y) / (b.x - a.x) / nf)) out

end TDifferentiator

namespace TFrequencyAnalyzer

/-- `TFrequencyAnalyzer` construction plus `execute`
(TFrequencyAnalyzer.cpp lines 44-46 and 88-150).  The constructor rejects
fromFrequency ≥ toFrequency.  execute: null check, duration-presence check,
then `samplingFrequency.value()` (throws when absent).  The spectrum buffer
is built by `make_unique<TSignalLine>(ceil((to - from) / step))`: the
argument is a double, so overload resolution selects the
(samplingFrequency, duration, ...) constructor with samplingFrequency =
ceil((to - from)/step) and every other argument defaulted (duration = 1.0,
oscillationFrequency = 1, initPhase = 0, offsetY = 0, amplitude = 1,
normalizeFactor = 1) - NOT the std::size_t pointsCount constructor.  A
DC-removed copy of the input is prepared, and for each index i of the
spectrum buffer a unit-amplitude zero-phase sine reference at frequency
from + i*step is generated (other generator parameters defaulted) and
correlated against the DC-removed copy with performNormalization = true (the
default argument of the two-pointer TCorrelator constructor); the point
(from + i*step, correlation) is stored, with the absolute value applied when
useAbsoluteValue (default false) holds. -/
def run (ops : RealOps α) (signalLine : Option (TSignalLine α))
    (fromFrequency toFrequency stepFrequency : α)
    (useAbsoluteValue : Option Bool) : Except SPError (TSignalLine α) :=
  if toFrequency ≤ fromFrequency then .error .invalidParameter
  else
    match signalLine with
    | none => .error .nullReference
    | some s =>
      match s.params.duration with
      | none => .error .invalidParameter
      | some d =>
        match s.params.samplingFrequency with
        | none => .error .emptyOptional
        | some fs => do
          let sl0 ← TSignalLine.ofSamplingAndDuration
            ((Int.ceil ((toFrequency - fromFrequency) / stepFrequency) : ℤ) : α)
            1 (some 1) (some 0) (some 0) (some 1) (some 1)
          let dc0 ← TSignalLine.ofCopyWithOffset s 0 0
          let dc ← dc0.removeDCComponent (some DEFAULT_INACCURACY)
          (List.range sl0.params.pointsCount).foldlM
            (fun acc (i : Nat) => do
              let genSL ← TGenerator.execute ops
                { samplingFreq := fs
                  duration := d
                  oscillationFreq := fromFrequency + (i : α) * stepFrequency
                  initPhase := 0
                  offsetY := 0
                  amplitude := 1
                  method := .sineWave
                  clampValue := some 10 }
              let c ← TCorrelator.execute ops (some dc) (some genSL)
                (some true)
              acc.setPointE i (fromFrequency + (i : α) * stepFrequency)
                (if useAbsoluteValue.getD false then |c| else c)) sl0

end TFrequencyAnalyzer

/-! General lemmas about the embedding, shared by the claim theorems. -/

@[simp]
theorem ok_bind {γ δ : Type} (x : γ) (f : γ → Except SPError δ) :
    (Except.ok x >>= f) = f x := rfl

@[simp]
theorem error_bind {γ δ : Type} (e : SPError) (f : γ → Except SPError δ) :
    ((Except.error e : Except SPError γ) >>= f) = Except.error e := rfl

@[simp]
theorem pure_eq_ok {γ : Type} (x : γ) :
    (pure x : Except SPError γ) = Except.ok x := rfl

@[simp]
theorem isOk_ok {γ : Type} (x : γ) :
    (Except.ok x : Except SPError γ).isOk = true := rfl

@[simp]
theorem isOk_error {γ : Type} (e : SPError) :
    (Except.error e : Except SPError γ).isOk = false := rfl

instance {γ : Type} [DecidableEq γ] : DecidableEq (Except SPError γ) := fun
  | .ok a, .ok b =>
    if h : a = b then .isTrue (by rw [h]) else .isFalse (by simp [h])
  | .ok _, .error _ => .isFalse (by simp)
  | .error _, .ok _ => .isFalse (by simp)
  | .error e, .error f =>
    if h : e = f then .isTrue (by rw [h]) else .isFalse (by simp [h])

/-- Proof-side total point accessor (defaults to the origin out of range). -/
def pointD (sl : TSignalLine α) (i : Nat) : Pt α :=
  sl.points.getD i ⟨0, 0⟩

theorem setPointE_ok_iff {sl res : TSignalLine α} {i : Nat} {x y : α} :
    sl.setPointE i x y = .ok res ↔
      i < sl.points.length ∧
        res = { sl with points := sl.points.set i ⟨x, y⟩ } := by
  unfold TSignalLine.setPointE
  by_cases h : i < sl.points.length <;> simp [h, eq_comm]

theorem getPointE_ok {sl : TSignalLine α} {i : Nat}
    (h : i < sl.points.length) :
    sl.getPointE i = .ok (sl.points[i]) := by
  unfold TSignalLine.getPointE
  simp [List.getElem?_eq_getElem h]

/-- Folding a list of writes over a buffer: when every body step is an
in-bounds setPoint with a value independent of the accumulator, the monadic
fold succeeds and equals the pure fold of `List.set` over the points. -/
theorem foldlM_writes (l : List Nat)
    (body : TSignalLine α → Nat → Except SPError (TSignalLine α))
    (w : Nat → Nat) (pt : Nat → Pt α) (sl : TSignalLine α)
    (hbody : ∀ acc i, i ∈ l → acc.params = sl.params →
      acc.points.length = sl.points.length →
      body acc i = acc.setPointE (w i) (pt i).x (pt i).y)
    (hw : ∀ i ∈ l, w i < sl.points.length) :
    l.foldlM body sl =
      .ok { sl with
        points := l.foldl (fun ps i => ps.set (w i) (pt i)) sl.points } := by
  suffices h : ∀ cur : TSignalLine α, cur.params = sl.params →
      cur.points.length = sl.points.length →
      l.foldlM body cur =
        .ok { cur with
          points := l.foldl (fun ps i => ps.set (w i) (pt i)) cur.points } by
    exact h sl rfl rfl
  induction l with
  | nil => intro cur _ _; exact rfl
  | cons a t ih =>
    intro cur hp hl
    have hb := hbody cur a (List.mem_cons_self a t) hp hl
    have hwa : w a < cur.points.length := hl ▸ hw a (List.mem_cons_self a t)
    have hset : cur.setPointE (w a) (pt a).x (pt a).y =
        .ok { cur with points := cur.points.set (w a) (pt a) } := by
      unfold TSignalLine.setPointE
      simp [hwa]
    have ih2 := ih (fun acc i hi => hbody acc i (List.mem_cons_of_mem a hi))
      (fun i hi => hw i (List.mem_cons_of_mem a hi))
      { cur with points := cur.points.set (w a) (pt a) }
      hp (by simpa using hl)
    simp only [List.foldlM_cons, hb, hset, List.foldl_cons]
    simpa using ih2

/-- Any fold whose successful steps are setPoint writes preserves the
parameter record and the number of stored points. -/
theorem foldlM_params_length (l : List Nat)
    (body : TSignalLine α → Nat → Except SPError (TSignalLine α))
    (sl out : TSignalLine α)
    (hbody : ∀ acc i res, i ∈ l → body acc i = .ok res →
      res.params = acc.params ∧ res.points.length = acc.points.length)
    (h : l.foldlM body sl = .ok out) :
    out.params = sl.params ∧ out.points.length = sl.points.length := by
  induction l generalizing sl with
  | nil =>
    simp only [List.foldlM_nil, pure_eq_ok, Except.ok.injEq] at h
    subst h
    exact ⟨rfl, rfl⟩
  | cons a t ih =>
    rw [List.foldlM_cons] at h
    cases hb : body sl a with
    | error e => rw [hb] at h; simp at h
    | ok s1 =>
      rw [hb] at h
      simp only [ok_bind] at h
      have h1 := hbody sl a s1 (List.mem_cons_self a t) hb
      have h2 := ih s1 (fun acc i res hi => hbody acc i res
        (List.mem_cons_of_mem a hi)) h
      exact ⟨h2.1.trans h1.1, h2.2.trans h1.2⟩

theorem foldl_set_length (l : List Nat) (w : Nat → Nat) (pt : Nat → Pt α) :
    ∀ ps : List (Pt α),
      (l.foldl (fun ps i => ps.set (w i) (pt i)) ps).length = ps.length := by
  induction l with
  | nil => intro ps; simp
  | cons a t ih => intro ps; rw [List.foldl_cons, ih]; simp

theorem getD_set (l : List (Pt α)) (i k : Nat) (v d : Pt α) :
    (l.set i v).getD k d =
      if i = k ∧ k < l.length then v else l.getD k d := by
  by_cases h : i = k ∧ k < l.length
  · obtain ⟨rfl, hlt⟩ := h
    simp [List.getD_eq_getElem?_getD, List.getElem?_set_self,
      List.getElem?_eq_getElem hlt, hlt]
  · rw [if_neg h]
    by_cases hik : i = k
    · subst hik
      have hge : l.length ≤ i := by omega
      simp [List.getD_eq_getElem?_getD, List.getElem?_eq_none,
        List.getElem?_eq_none hge, hge, List.length_set]
    · simp [List.getD_eq_getElem?_getD, List.getElem?_set_ne hik]

/-- The pure fold of ascending writes at indices δ, δ+1, ...:
characterization of the resulting points. -/
theorem foldl_set_range_getD (n δ : Nat) (f : Nat → Pt α)
    (ps : List (Pt α)) (k : Nat) :
    ((List.range n).foldl (fun ps i => ps.set (i + δ) (f i)) ps).getD k
        ⟨0, 0⟩ =
      if δ ≤ k ∧ k < δ + n ∧ k < ps.length then f (k - δ)
      else ps.getD k ⟨0, 0⟩ := by
  induction n with
  | zero =>
    rw [List.range_zero, List.foldl_nil, if_neg (by omega)]
  | succ m ih =>
    rw [List.range_succ, List.foldl_append, List.foldl_cons, List.foldl_nil]
    rw [getD_set, foldl_set_length, ih]
    by_cases hkm : m + δ = k ∧ k < ps.length
    · rw [if_pos hkm, if_pos (by omega)]
      have : k - δ = m := by omega
      rw [this]
    · rw [if_neg hkm]
      by_cases hc : δ ≤ k ∧ k < δ + m ∧ k < ps.length
      · rw [if_pos hc, if_pos (by omega)]
      · rw [if_neg hc, if_neg (by omega)]

/-- Inversion for a fold over `List.range n` whose steps write point i at
index i with a fixed x coordinate (the y value may depend on anything): a
successful fold preserves params and length and pins the x coordinate of
every index below n. -/
theorem foldlM_range_x_inv (n : Nat)
    (body : TSignalLine α → Nat → Except SPError (TSignalLine α))
    (xf : Nat → α) (sl out : TSignalLine α)
    (hbody : ∀ acc i res, i < n → body acc i = .ok res →
      ∃ yv, i < acc.points.length ∧
        res = { acc with points := acc.points.set i ⟨xf i, yv⟩ })
    (h : (List.range n).foldlM body sl = .ok out) :
    out.params = sl.params ∧ out.points.length = sl.points.length ∧
      ∀ k, k < n → k < out.points.length → (pointD out k).x = xf k := by
  rw [List.range_eq_range'] at h
  suffices haux : ∀ (m a : Nat) (cur : TSignalLine α), a + m ≤ n →
      (List.range' a m).foldlM body cur = .ok out →
      out.params = cur.params ∧ out.points.length = cur.points.length ∧
        (∀ k, a ≤ k → k < a + m → k < out.points.length →
          (pointD out k).x = xf k) ∧
        (∀ k, k < a → pointD out k = pointD cur k) by
    obtain ⟨h1, h2, h3, _⟩ := haux n 0 sl (by omega) h
    exact ⟨h1, h2, fun k hkn hk => h3 k (by omega) (by omega) hk⟩
  intro m
  induction m with
  | zero =>
    intro a cur _ hfold
    simp only [List.range'_zero, List.foldlM_nil, pure_eq_ok,
      Except.ok.injEq] at hfold
    subst hfold
    exact ⟨rfl, rfl, fun k h1 h2 _ => by omega, fun k _ => rfl⟩
  | succ m ih =>
    intro a cur ham hfold
    rw [List.range'_succ, List.foldlM_cons] at hfold
    cases hb : body cur a with
    | error e => rw [hb] at hfold; simp at hfold
    | ok s1 =>
      rw [hb] at hfold
      simp only [ok_bind] at hfold
      obtain ⟨yv, hlt, hres⟩ := hbody cur a s1 (by omega) hb
      obtain ⟨i1, i2, i3, i4⟩ := ih (a + 1) s1 (by omega) hfold
      have hs1p : s1.params = cur.params := by rw [hres]
      have hs1l : s1.points.length = cur.points.length := by
        rw [hres]; simp
      refine ⟨i1.trans hs1p, i2.trans hs1l, ?_, ?_⟩
      · intro k hak hkm hk
        by_cases hka : k = a
        · subst hka
          rw [i4 k (by omega), hres]
          unfold pointD
          rw [getD_set, if_pos ⟨rfl, hlt⟩]
        · exact i3 k (by omega) (by omega) hk
      · intro k hka
        rw [i4 k (by omega), hres]
        unfold pointD
        rw [getD_set, if_neg (by omega)]

theorem getPointE_pointD {sl : TSignalLine α} {i : Nat}
    (h : i < sl.points.length) :
    sl.getPointE i = .ok (pointD sl i) := by
  unfold TSignalLine.getPointE pointD
  simp [List.getElem?_eq_getElem h, List.getD_eq_getElem?_getD,
    List.getElem?_eq_getElem h]

/-- A monadic fold that accumulates a sum with a step value independent of
the accumulator succeeds and equals the pure fold. -/
theorem foldlM_sum_ok (l : List Nat) (body : α → Nat → Except SPError α)
    (f : Nat → α)
    (hbody : ∀ acc i, i ∈ l → body acc i = .ok (acc + f i)) :
    ∀ init, l.foldlM body init =
      .ok (l.foldl (fun acc i => acc + f i) init) := by
  induction l with
  | nil => intro init; exact rfl
  | cons a t ih =>
    intro init
    rw [List.foldlM_cons, hbody init a (List.mem_cons_self a t), ok_bind,
      List.foldl_cons]
    exact ih (fun acc i hi => hbody acc i (List.mem_cons_of_mem a hi)) _

/-! Claim theorems.  The Batteries rational arithmetic is `@[irreducible]`;
making it semireducible again lets `decide` evaluate the embedded code on
concrete rational inputs. -/

attribute [local semireducible] Rat.mul Rat.inv Rat.add Rat.sub
  Rat.ofScientific

/-- C8: the Integrator fails exactly when the input has fewer than 2 points,
or the Simpson method is chosen with an even point count, or the Boole
method is chosen with a point count not congruent to 1 modulo 4; for the
three supported methods it succeeds in every other case. -/
theorem C8_integrator_failure_conditions (sl : TSignalLine α)
    (method : IntegrationMethod)
    (hWF : sl.points.length = sl.params.pointsCount) :
    (TIntegrator.execute (some sl) method).isOk = true ↔
      (2 ≤ sl.params.pointsCount ∧
        (method = .simpson → sl.params.pointsCount % 2 = 1) ∧
        (method = .boole → sl.params.pointsCount % 4 = 1)) := by
  unfold TIntegrator.execute
  dsimp only
  by_cases h2 : sl.params.pointsCount < 2
  · rw [if_pos h2]
    simp only [isOk_error, Bool.false_eq_true, false_iff]
    intro h
    omega
  · rw [if_neg h2]
    cases method with
    | trapezoidal =>
      have hok := foldlM_sum_ok (List.range' 1 (sl.params.pointsCount - 1))
        (fun acc i => do
          let p ← sl.getPointE (i - 1)
          let q ← sl.getPointE i
          pure (acc + (p.y + q.y) / 2 * (q.x - p.x)))
        (fun i => ((pointD sl (i - 1)).y + (pointD sl i).y) / 2 *
          ((pointD sl i).x - (pointD sl (i - 1)).x))
        (by
          intro acc i hi
          rw [List.mem_range'] at hi
          obtain ⟨j, hj, rfl⟩ := hi
          dsimp only
          rw [getPointE_pointD (by omega), ok_bind,
            getPointE_pointD (by omega), ok_bind]
          rfl)
        0
      rw [hok]
      constructor
      · intro _
        refine ⟨by omega, ?_, ?_⟩ <;> intro h <;> exact absurd h (by decide)
      · intro _
        rfl
    | simpson =>
      by_cases hodd : sl.params.pointsCount % 2 = 0
      · rw [if_pos hodd]
        constructor
        · intro h
          exact Bool.noConfusion h
        · intro hcontr
          exact absurd (hcontr.2.1 rfl) (by omega)
      · rw [if_neg hodd]
        have hok := foldlM_sum_ok
          (List.range' 1 ((sl.params.pointsCount - 1) / 2) 2)
          (fun acc i => do
            let p ← sl.getPointE (i - 1)
            let m ← sl.getPointE i
            let q ← sl.getPointE (i + 1)
            pure (acc + (q.x - p.x) / 6 * (p.y + 4 * m.y + q.y)))
          (fun i => ((pointD sl (i + 1)).x - (pointD sl (i - 1)).x) / 6 *
            ((pointD sl (i - 1)).y + 4 * (pointD sl i).y +
              (pointD sl (i + 1)).y))
          (by
            intro acc i hi
            rw [List.mem_range'] at hi
            obtain ⟨j, hj, rfl⟩ := hi
            dsimp only
            rw [getPointE_pointD (by omega), ok_bind,
              getPointE_pointD (by omega), ok_bind,
              getPointE_pointD (by omega), ok_bind]
            rfl)
          0
        rw [hok]
        constructor
        · intro _
          refine ⟨by omega, fun _ => by omega, ?_⟩
          intro h
          exact absurd h (by decide)
        · intro _
          rfl
    | boole =>
      by_cases hmod : sl.params.pointsCount % 4 = 1
      · have hcond : ¬(sl.params.pointsCount % 4 ≠ 1) := by omega
        rw [if_neg hcond]
        have hok := foldlM_sum_ok
          (List.range' 0 ((sl.params.pointsCount - 4 + 3) / 4) 4)
          (fun acc i => do
            let p0 ← sl.getPointE i
            let p1 ← sl.getPointE (i + 1)
            let p2 ← sl.getPointE (i + 2)
            let p3 ← sl.getPointE (i + 3)
            let p4 ← sl.getPointE (i + 4)
            pure (acc + (p4.x - p0.x) / 90 *
              (7 * p0.y + 32 * p1.y + 12 * p2.y + 32 * p3.y + 7 * p4.y)))
          (fun i => ((pointD sl (i + 4)).x - (pointD sl i).x) / 90 *
            (7 * (pointD sl i).y + 32 * (pointD sl (i + 1)).y +
              12 * (pointD sl (i + 2)).y + 32 * (pointD sl (i + 3)).y +
              7 * (pointD sl (i + 4)).y))
          (by
            intro acc i hi
            rw [List.mem_range'] at hi
            obtain ⟨j, hj, rfl⟩ := hi
            dsimp only
            rw [getPointE_pointD (by omega), ok_bind,
              getPointE_pointD (by omega), ok_bind,
              getPointE_pointD (by omega), ok_bind,
              getPointE_pointD (by omega), ok_bind,
              getPointE_pointD (by omega), ok_bind]
            rfl)
          0
        rw [hok]
        constructor
        · intro _
          refine ⟨by omega, ?_, fun _ => hmod⟩
          intro h
          exact absurd h (by decide)
        · intro _
          rfl
      · rw [if_pos hmod]
        constructor
        · intro h
          exact Bool.noConfusion h
        · intro hcontr
          exact absurd (hcontr.2.2 rfl) hmod

/-- Witness for C8: a well-formed 5-point buffer with the Boole method
succeeds (5 ≡ 1 mod 4). -/
theorem C8_integrator_failure_conditions_witness :
    ((TSignalLine.ofPointsCount 5 : TSignalLine ℚ).points.length =
        (TSignalLine.ofPointsCount 5 : TSignalLine ℚ).params.pointsCount) ∧
      ((TIntegrator.execute
          (some (TSignalLine.ofPointsCount 5 : TSignalLine ℚ))
          .boole).isOk = true ↔
        (2 ≤ (TSignalLine.ofPointsCount 5 :
            TSignalLine ℚ).params.pointsCount ∧
          (IntegrationMethod.boole = .simpson →
            (TSignalLine.ofPointsCount 5 :
              TSignalLine ℚ).params.pointsCount % 2 = 1) ∧
          (IntegrationMethod.boole = .boole →
            (TSignalLine.ofPointsCount 5 :
              TSignalLine ℚ).params.pointsCount % 4 = 1))) :=
  ⟨by decide,
    C8_integrator_failure_conditions (TSignalLine.ofPointsCount 5) .boole
      (by decide)⟩

theorem ofParams_preferPointsCount (params : TSignalLineParams α) :
    TSignalLine.ofParams params (some .preferPointsCount) =
      .ok { points := List.replicate params.pointsCount ⟨0, 0⟩
            params := params } := rfl

/-- C9: a successful Differentiator run on an input of at least 2 points
yields pointsCount - 2 output points for CentralOnly and pointsCount output
points for CentralAndEdges (both in the parameter record and in the stored
point list). -/
theorem C9_differentiator_pointsCount (sl out : TSignalLine α) (pn : Bool)
    (m : DifferentiationMethod)
    (h2 : 2 ≤ sl.params.pointsCount)
    (h : TDifferentiator.execute (some sl) pn m = .ok out) :
    out.params.pointsCount =
      (match m with
        | .centralOnly => sl.params.pointsCount - 2
        | .centralAndEdges => sl.params.pointsCount) ∧
    out.points.length = out.params.pointsCount := by
  unfold TDifferentiator.execute at h
  dsimp only at h
  rw [if_neg (by omega)] at h
  have hbodyfold : ∀ (w : Nat → Nat) (nf : α)
      (acc res : TSignalLine α) (i : Nat),
      (do
        let a ← sl.getPointE (i - 1)
        let b ← sl.getPointE (i + 1)
        acc.setPointE (w i) a.x ((b.y - a.y) / (b.x - a.x) / nf)) = .ok res →
      res.params = acc.params ∧ res.points.length = acc.points.length := by
    intro w nf acc res i hb
    cases hga : sl.getPointE (i - 1) with
    | error e => rw [hga] at hb; exact absurd hb (by simp)
    | ok a =>
      rw [hga] at hb
      cases hgb : sl.getPointE (i + 1) with
      | error e => rw [hgb] at hb; exact absurd hb (by simp)
      | ok b =>
        rw [hgb] at hb
        simp only [ok_bind] at hb
        obtain ⟨hlt, rfl⟩ := setPointE_ok_iff.mp hb
        exact ⟨rfl, by simp⟩
  cases hnf0 : TDifferentiator.normFactor pn sl.params with
  | error e =>
    rw [hnf0] at h
    exact absurd h (by simp)
  | ok nf =>
    rw [hnf0] at h
    simp only [ok_bind] at h
    cases m with
    | centralOnly =>
      rw [ofParams_preferPointsCount, ok_bind] at h
      have hpl := foldlM_params_length _ _ _ _
        (fun acc i res _ hb => hbodyfold (fun i => i - 1) nf acc res i hb) h
      refine ⟨?_, ?_⟩
      · rw [hpl.1]
      · rw [hpl.2, hpl.1]
        simp
    | centralAndEdges =>
      rw [ofParams_preferPointsCount, ok_bind] at h
      cases hg0 : sl.getPointE 0 with
      | error e => rw [hg0] at h; exact absurd h (by simp)
      | ok p0 =>
        rw [hg0] at h
        cases hg1 : sl.getPointE 1 with
        | error e => rw [hg1] at h; exact absurd h (by simp)
        | ok p1 =>
          rw [hg1] at h
          simp only [ok_bind] at h
          cases ho1 : TSignalLine.setPointE
              { points :=
                  List.replicate
                    ({ sl.params with
                        pointsCount := sl.params.pointsCount }).pointsCount
                    ⟨0, 0⟩
                params :=
                  { sl.params with pointsCount := sl.params.pointsCount } } 0
              p0.x ((p1.y - p0.y) / (p1.x - p0.x) / nf) with
          | error e => rw [ho1] at h; exact absurd h (by simp)
          | ok o1 =>
            rw [ho1] at h
            simp only [ok_bind] at h
            obtain ⟨hlt1, rfl⟩ := setPointE_ok_iff.mp ho1
            cases hq0 : sl.getPointE (sl.params.pointsCount - 2) with
            | error e => rw [hq0] at h; exact absurd h (by simp)
            | ok q0 =>
              rw [hq0] at h
              cases hq1 : sl.getPointE (sl.params.pointsCount - 1) with
              | error e => rw [hq1] at h; exact absurd h (by simp)
              | ok q1 =>
                rw [hq1] at h
                simp only [ok_bind] at h
                cases ho2 : TSignalLine.setPointE _
                    (sl.params.pointsCount - 1) q0.x
                    ((q1.y - q0.y) / (q1.x - q0.x) / nf) with
                | error e => rw [ho2] at h; exact absurd h (by simp)
                | ok o2 =>
                  rw [ho2] at h
                  simp only [ok_bind] at h
                  obtain ⟨hlt2, rfl⟩ := setPointE_ok_iff.mp ho2
                  have hpl := foldlM_params_length _ _ _ _
                    (fun acc i res _ hb =>
                      hbodyfold (fun i => i) nf acc res i hb) h
                  refine ⟨?_, ?_⟩
                  · rw [hpl.1]
                  · rw [hpl.2, hpl.1]
                    simp

/-- Witness for C9: a 3-point buffer differentiated with CentralOnly yields
a 1-point output buffer. -/
theorem C9_differentiator_pointsCount_witness :
    (2 ≤ (TSignalLine.ofPointsCount 3 : TSignalLine ℚ).params.pointsCount) ∧
      ((⟨[⟨0, 0⟩], { defaultParams with pointsCount := 1 }⟩ :
          TSignalLine ℚ).params.pointsCount =
        (TSignalLine.ofPointsCount 3 : TSignalLine ℚ).params.pointsCount - 2 ∧
      (⟨[⟨0, 0⟩], { defaultParams with pointsCount := 1 }⟩ :
          TSignalLine ℚ).points.length =
        (⟨[⟨0, 0⟩], { defaultParams with pointsCount := 1 }⟩ :
          TSignalLine ℚ).params.pointsCount) :=
  ⟨by decide,
    C9_differentiator_pointsCount (TSignalLine.ofPointsCount 3)
      ⟨[⟨0, 0⟩], { defaultParams with pointsCount := 1 }⟩ false .centralOnly
      (by decide) (by decide)⟩

theorem pointD_lt {sl : TSignalLine α} {i : Nat} (h : i < sl.points.length) :
    pointD sl i = sl.points[i] := by
  unfold pointD
  rw [List.getD_eq_getElem?_getD, List.getElem?_eq_getElem h]
  rfl

theorem pointD_mk (ps : List (Pt α)) (pr : TSignalLineParams α) (k : Nat) :
    pointD ⟨ps, pr⟩ k = ps.getD k ⟨0, 0⟩ := rfl

/-- C6 counterexample: with two buffers of different pointsCounts, a negative
inaccuracy is NOT rejected: `equals` returns false before ever validating the
inaccuracy, contradicting the claim that a negative inaccuracy is an error. -/
theorem C6_equals_negative_inaccuracy_counterexample :
    TSignalLine.equalsE (TSignalLine.ofPointsCount 1 : TSignalLine ℚ)
      (TSignalLine.ofPointsCount 2) (some (-1)) = .ok false := by decide

/-- C6 (amended): for nonempty well-formed buffers and a nonnegative
inaccuracy, `equals` returns true iff the pointsCounts are equal and both the
first and the last points' x coordinates differ by at most the inaccuracy
(no y values are inspected); a negative inaccuracy is rejected as an error
exactly when the pointsCounts are equal (when they differ the result is
false and the inaccuracy is never validated). -/
theorem C6_equals_characterization (a b : TSignalLine α) (t : α)
    (hWFa : a.points.length = a.params.pointsCount)
    (hWFb : b.points.length = b.params.pointsCount)
    (h1a : 1 ≤ a.params.pointsCount)
    (h1b : 1 ≤ b.params.pointsCount) :
    (0 ≤ t →
      (a.equalsE b (some t) = .ok true ↔
        (a.params.pointsCount = b.params.pointsCount ∧
          |(pointD a 0).x - (pointD b 0).x| ≤ t ∧
          |(pointD a (a.params.pointsCount - 1)).x -
            (pointD b (a.params.pointsCount - 1)).x| ≤ t))) ∧
    (t < 0 → a.params.pointsCount = b.params.pointsCount →
      a.equalsE b (some t) = .error .invalidParameter) ∧
    (a.params.pointsCount ≠ b.params.pointsCount →
      a.equalsE b (some t) = .ok false) := by
  have ha0 : 0 < a.points.length := by omega
  have hb0 : 0 < b.points.length := by omega
  refine ⟨?_, ?_, ?_⟩
  · intro ht
    unfold TSignalLine.equalsE
    by_cases hc : a.params.pointsCount = b.params.pointsCount
    · rw [if_neg (by omega)]
      have hlast_a : a.params.pointsCount - 1 < a.points.length := by omega
      have hlast_b : a.params.pointsCount - 1 < b.points.length := by omega
      rw [getPointE_pointD ha0, ok_bind, getPointE_pointD hb0, ok_bind]
      unfold TSignalLine.areCloseX
      dsimp only
      rw [if_neg (not_lt.mpr ht)]
      simp only [ok_bind]
      by_cases hfirst : |(pointD a 0).x - (pointD b 0).x| ≤ t
      · rw [if_pos (by simpa using hfirst)]
        rw [getPointE_pointD hlast_a, ok_bind, getPointE_pointD hlast_b,
          ok_bind]
        rw [if_neg (not_lt.mpr ht)]
        constructor
        · intro hres
          refine ⟨hc, hfirst, ?_⟩
          simpa using Except.ok.inj hres
        · intro hres
          simp [hres.2.2]
      · rw [if_neg (by simpa using hfirst)]
        simp only [pure_eq_ok]
        constructor
        · intro hres
          exact absurd (Except.ok.inj hres) (by simp)
        · intro hres
          exact absurd hres.2.1 hfirst
    · rw [if_pos hc]
      constructor
      · intro hres
        exact absurd (Except.ok.inj hres) (by simp)
      · intro hres
        exact absurd hres.1 hc
  · intro ht hc
    unfold TSignalLine.equalsE
    rw [if_neg (by omega)]
    rw [getPointE_pointD ha0, ok_bind, getPointE_pointD hb0, ok_bind]
    unfold TSignalLine.areCloseX
    dsimp only
    rw [if_pos ht]
    rfl
  · intro hc
    unfold TSignalLine.equalsE
    rw [if_pos hc]

/-- Witness for C6: two 2-point buffers with identical (zero) endpoints and a
nonnegative inaccuracy are equal. -/
theorem C6_equals_characterization_witness :
    ((TSignalLine.ofPointsCount 2 : TSignalLine ℚ).points.length =
      (TSignalLine.ofPointsCount 2 : TSignalLine ℚ).params.pointsCount) ∧
    ((0 ≤ (0 : ℚ) →
      (TSignalLine.equalsE (TSignalLine.ofPointsCount 2 : TSignalLine ℚ)
          (TSignalLine.ofPointsCount 2) (some 0) = .ok true ↔
        ((TSignalLine.ofPointsCount 2 : TSignalLine ℚ).params.pointsCount =
          (TSignalLine.ofPointsCount 2 : TSignalLine ℚ).params.pointsCount ∧
          |(pointD (TSignalLine.ofPointsCount 2 : TSignalLine ℚ) 0).x -
            (pointD (TSignalLine.ofPointsCount 2 : TSignalLine ℚ) 0).x| ≤ 0 ∧
          |(pointD (TSignalLine.ofPointsCount 2 : TSignalLine ℚ)
              ((TSignalLine.ofPointsCount 2 :
                TSignalLine ℚ).params.pointsCount - 1)).x -
            (pointD (TSignalLine.ofPointsCount 2 : TSignalLine ℚ)
              ((TSignalLine.ofPointsCount 2 :
                TSignalLine ℚ).params.pointsCount - 1)).x| ≤ 0))) ∧
    ((0 : ℚ) < 0 →
      (TSignalLine.ofPointsCount 2 : TSignalLine ℚ).params.pointsCount =
        (TSignalLine.ofPointsCount 2 : TSignalLine ℚ).params.pointsCount →
      TSignalLine.equalsE (TSignalLine.ofPointsCount 2 : TSignalLine ℚ)
        (TSignalLine.ofPointsCount 2) (some 0) = .error .invalidParameter) ∧
    ((TSignalLine.ofPointsCount 2 : TSignalLine ℚ).params.pointsCount ≠
        (TSignalLine.ofPointsCount 2 : TSignalLine ℚ).params.pointsCount →
      TSignalLine.equalsE (TSignalLine.ofPointsCount 2 : TSignalLine ℚ)
        (TSignalLine.ofPointsCount 2) (some 0) = .ok false)) :=
  ⟨by decide,
    C6_equals_characterization (TSignalLine.ofPointsCount 2)
      (TSignalLine.ofPointsCount 2) 0 (by decide) (by decide) (by decide)
      (by decide)⟩

theorem pointD_ofPointsCount (n k : Nat) :
    pointD (TSignalLine.ofPointsCount n : TSignalLine α) k = ⟨0, 0⟩ := by
  unfold pointD TSignalLine.ofPointsCount
  rw [List.getD_eq_getElem?_getD]
  cases h : (List.replicate n (⟨0, 0⟩ : Pt α))[k]? with
  | none => rfl
  | some p =>
    have := List.getElem?_mem h
    rw [List.eq_of_mem_replicate this]
    rfl

/-- `equals` on one and the same buffer with a nonnegative inaccuracy always
succeeds with true. -/
theorem equalsE_self (a : TSignalLine α) (t : α) (ht : 0 ≤ t)
    (hWF : a.points.length = a.params.pointsCount)
    (h1 : 1 ≤ a.params.pointsCount) :
    a.equalsE a (some t) = .ok true := by
  have ha0 : 0 < a.points.length := by omega
  have hlast : a.params.pointsCount - 1 < a.points.length := by omega
  unfold TSignalLine.equalsE
  rw [if_neg (by omega)]
  rw [getPointE_pointD ha0]
  simp only [ok_bind]
  unfold TSignalLine.areCloseX
  dsimp only
  rw [if_neg (not_lt.mpr ht)]
  simp only [ok_bind, sub_self, abs_zero]
  rw [if_pos (by simpa using ht)]
  rw [getPointE_pointD hlast]
  simp only [ok_bind]
  rw [if_neg (not_lt.mpr ht)]
  simp [ht]

theorem foldl_add_zero (l : List Nat) (f : Nat → α)
    (hf : ∀ i ∈ l, f i = 0) :
    ∀ init, l.foldl (fun acc i => acc + f i) init = init := by
  induction l with
  | nil => intro init; rfl
  | cons a tl ih =>
    intro init
    rw [List.foldl_cons, hf a (List.mem_cons_self a tl), add_zero]
    exact ih (fun i hi => hf i (List.mem_cons_of_mem a hi)) init

theorem foldl_set_range_getD_id (n : Nat) (f : Nat → Pt α)
    (ps : List (Pt α)) (k : Nat) :
    ((List.range n).foldl (fun ps i => ps.set i (f i)) ps).getD k ⟨0, 0⟩ =
      if k < n ∧ k < ps.length then f k else ps.getD k ⟨0, 0⟩ := by
  have h := foldl_set_range_getD n 0 f ps k
  simp only [Nat.add_zero, Nat.zero_add, Nat.zero_le, true_and,
    Nat.sub_zero] at h
  exact h

theorem pointsCountFrom_100_1 : pointsCountFrom (100 : α) 1 = 101 := by
  unfold pointsCountFrom
  have : (1 : α) * 100 + 1 = ((101 : ℤ) : α) := by norm_num
  rw [this, Int.ceil_intCast]
  rfl

set_option maxRecDepth 100000 in
/-- C5 counterexample: a buffer built from an explicit point count DOES carry
time-domain parameters: the defaulted record has duration 1 and sampling
frequency 100 engaged, and RMS on such a buffer succeeds (returning
sqrt(0)), contradicting the claim that it must fail for lack of duration. -/
theorem C5_pointsCount_buffer_counterexample :
    (TSignalLine.ofPointsCount 3 : TSignalLine ℚ).params.duration = some 1 ∧
    (TSignalLine.ofPointsCount 3 :
      TSignalLine ℚ).params.samplingFrequency = some 100 ∧
    TRMS.execute ⟨fun _ => 0, fun _ => 0, fun _ => 0, fun x => x, 0⟩
      (some (TSignalLine.ofPointsCount 3 : TSignalLine ℚ)) = .ok 0 := by
  refine ⟨by decide, by decide, ?_⟩
  decide

/-- Trapezoidal integration of a 101-point all-zero buffer is 0. -/
theorem integrator_trapezoidal_zero (s : TSignalLine α)
    (hc : s.params.pointsCount = 101) (hl : s.points.length = 101)
    (hz : ∀ k, pointD s k = ⟨0, 0⟩) :
    TIntegrator.execute (some s) .trapezoidal = .ok 0 := by
  unfold TIntegrator.execute
  dsimp only
  rw [if_neg (by omega)]
  have hsum := foldlM_sum_ok (List.range' 1 (s.params.pointsCount - 1))
    (fun acc i => do
      let p ← s.getPointE (i - 1)
      let q ← s.getPointE i
      pure (acc + (p.y + q.y) / 2 * (q.x - p.x)))
    (fun _ => 0)
    (by
      intro acc i hi
      rw [List.mem_range'] at hi
      obtain ⟨j, hj, rfl⟩ := hi
      dsimp only
      rw [getPointE_pointD (by omega), ok_bind,
        getPointE_pointD (by omega), ok_bind, hz, hz]
      dsimp only
      norm_num)
    0
  rw [hsum]
  rw [foldl_add_zero _ _ (fun i _ => rfl)]

/-- C5 (amended): a buffer built from an explicit point count n keeps every
member-initializer default engaged (samplingFrequency 100, duration 1,
oscillationFrequency 1, initPhase 0, offsetY 0, amplitude 1,
normalizeFactor 1) with only pointsCount overwritten; its points are n
zero-valued points; and RMS does NOT fail on it: for 2 ≤ n ≤ 101 (the output
count the Multiplier recomputes from the default duration and sampling
frequency) RMS succeeds and returns sqrt(0). -/
theorem C5_pointsCount_buffer_defaults (ops : RealOps α) (n : Nat)
    (h2 : 2 ≤ n) (hn : n ≤ 101) :
    (TSignalLine.ofPointsCount n : TSignalLine α).params =
      { defaultParams with pointsCount := n } ∧
    (TSignalLine.ofPointsCount n : TSignalLine α).points =
      List.replicate n ⟨0, 0⟩ ∧
    TRMS.execute ops (some (TSignalLine.ofPointsCount n)) =
      .ok (ops.sqrt 0) := by
  refine ⟨rfl, rfl, ?_⟩
  have hWF : (TSignalLine.ofPointsCount n : TSignalLine α).points.length =
      (TSignalLine.ofPointsCount n : TSignalLine α).params.pointsCount := by
    simp [TSignalLine.ofPointsCount]
  have hcount : (TSignalLine.ofPointsCount n :
      TSignalLine α).params.pointsCount = n := rfl
  have hlen : (TSignalLine.ofPointsCount n :
      TSignalLine α).points.length = n := by rw [hWF, hcount]
  unfold TRMS.execute
  have hdur : (TSignalLine.ofPointsCount n :
      TSignalLine α).params.duration = some 1 := rfl
  dsimp only
  rw [hdur]
  have heq := equalsE_self (TSignalLine.ofPointsCount n : TSignalLine α)
    DEFAULT_INACCURACY (by unfold DEFAULT_INACCURACY; positivity) hWF
    (by omega)
  unfold TMultiplier.execute
  dsimp only
  rw [heq, ok_bind, if_pos rfl]
  have hofp : TSignalLine.ofParams
      (TSignalLine.ofPointsCount n : TSignalLine α).params none =
      .ok { points := List.replicate 101 ⟨0, 0⟩
            params := { defaultParams with pointsCount := 101 } } := by
    unfold TSignalLine.ofParams
    have hd : (TSignalLine.ofPointsCount n :
        TSignalLine α).params.duration = some 1 := rfl
    have hsf : (TSignalLine.ofPointsCount n :
        TSignalLine α).params.samplingFrequency = some 100 := rfl
    rw [show (none : Option Preference).getD .auto = .auto from rfl]
    rw [hd, hsf]
    dsimp only
    rw [if_neg (by norm_num), if_neg (by norm_num), pointsCountFrom_100_1]
    rfl
  rw [hofp, ok_bind]
  have hfold := foldlM_writes (List.range n)
    (fun acc i => do
      let p ← (TSignalLine.ofPointsCount n : TSignalLine α).getPointE i
      let q ← (TSignalLine.ofPointsCount n : TSignalLine α).getPointE i
      acc.setPointE i p.x (p.y * q.y))
    (fun i => i) (fun _ => ⟨0, 0⟩)
    { points := List.replicate 101 ⟨0, 0⟩
      params := { defaultParams with pointsCount := 101 } }
    (by
      intro acc i hi _ _
      rw [List.mem_range] at hi
      dsimp only
      rw [getPointE_pointD (show i < (TSignalLine.ofPointsCount n :
        TSignalLine α).points.length by omega)]
      simp only [ok_bind, pointD_ofPointsCount]
      rw [mul_zero])
    (by
      intro i hi
      rw [List.mem_range] at hi
      simp only [List.length_replicate]
      omega)
  rw [hcount, hfold, ok_bind]
  have hint := integrator_trapezoidal_zero
    (α := α)
    { points := (List.range n).foldl
        (fun ps i => ps.set i (⟨0, 0⟩ : Pt α)) (List.replicate 101 ⟨0, 0⟩)
      params := { defaultParams with pointsCount := 101 } }
    rfl
    (by
      simp only []
      rw [foldl_set_length]
      simp)
    (by
      intro k
      unfold pointD
      simp only []
      rw [foldl_set_range_getD_id]
      by_cases hk : k < n ∧ k < (List.replicate 101 (⟨0, 0⟩ : Pt α)).length
      · rw [if_pos hk]
      · rw [if_neg hk]
        rw [List.getD_eq_getElem?_getD]
        cases h : (List.replicate 101 (⟨0, 0⟩ : Pt α))[k]? with
        | none => rfl
        | some p =>
          have := List.getElem?_mem h
          rw [List.eq_of_mem_replicate this]
          rfl)
  rw [hint, ok_bind, zero_div]
  rfl

/-- Witness for C5: the amended statement at n = 3 over the rationals. -/
theorem C5_pointsCount_buffer_defaults_witness :
    ((TSignalLine.ofPointsCount 3 : TSignalLine ℚ).params =
      { defaultParams with pointsCount := 3 } ∧
    (TSignalLine.ofPointsCount 3 : TSignalLine ℚ).points =
      List.replicate 3 ⟨0, 0⟩ ∧
    TRMS.execute ⟨fun _ => 0, fun _ => 0, fun _ => 0, fun x => x, 0⟩
      (some (TSignalLine.ofPointsCount 3 : TSignalLine ℚ)) =
      .ok ((fun (x : ℚ) => x) 0)) :=
  C5_pointsCount_buffer_defaults
    ⟨fun _ => 0, fun _ => 0, fun _ => 0, fun x => x, 0⟩ 3
    (by decide) (by decide)

/-- Evaluation of the TSignalLineParams constructor with the default Auto
preference when duration and samplingFrequency are engaged and positive: the
pointsCount is recomputed from them. -/
theorem ofParams_auto (params : TSignalLineParams α) (d sf : α)
    (hd : params.duration = some d)
    (hsf : params.samplingFrequency = some sf)
    (hd0 : 0 < d) (hsf0 : 0 < sf) :
    TSignalLine.ofParams params none =
      .ok { points := List.replicate (pointsCountFrom sf d) ⟨0, 0⟩
            params := { params with pointsCount := pointsCountFrom sf d } } := by
  unfold TSignalLine.ofParams
  rw [show (none : Option Preference).getD .auto = .auto from rfl]
  rw [hd, hsf]
  dsimp only
  rw [if_neg (not_le.mpr hd0), if_neg (not_le.mpr hsf0)]

set_option maxRecDepth 100000 in
/-- C4 counterexample: two compatible 3-point buffers built from an explicit
point count are accepted by the compatibility check, yet the Summator's
output buffer has 101 points (recomputed from the first input's default
duration 1 and sampling frequency 100), not the inputs' 3. -/
theorem C4_summator_pointsCount_counterexample :
    TSummator.execute (some (TSignalLine.ofPointsCount 3 : TSignalLine ℚ))
        (some (TSignalLine.ofPointsCount 3)) (some DEFAULT_INACCURACY) =
      .ok { points := List.replicate 101 ⟨0, 0⟩
            params := { defaultParams with pointsCount := 101 } } ∧
    (TSignalLine.ofPointsCount 3 : TSignalLine ℚ).params.pointsCount = 3 ∧
    (101 : Nat) ≠ 3 := by
  refine ⟨by decide, by decide, by decide⟩

/-- C4 (amended): for a pair of buffers accepted by the compatibility check
whose first input carries positive duration d and sampling frequency sf, the
Summator (resp. Multiplier) succeeds provided the first input's pointsCount
does not exceed ceil(d*sf + 1), and produces a buffer whose pointsCount is
ceil(d*sf + 1) recomputed from the first input's parameter record (equal to
the inputs' pointsCount exactly when the first input was built from duration
and sampling frequency); at every index below the first input's pointsCount
the output point is (x of input 1, sum resp. product of the y values), and
every further point stays (0,0).  A null input yields a NullReference error
and a failed compatibility check an IncompatibleSignals error. -/
theorem C4_summator_multiplier (a b : TSignalLine α) (t d sf : α)
    (heq : a.equalsE b (some t) = .ok true)
    (hd : a.params.duration = some d)
    (hsf : a.params.samplingFrequency = some sf)
    (hd0 : 0 < d) (hsf0 : 0 < sf)
    (hle : a.params.pointsCount ≤ pointsCountFrom sf d)
    (hwa : a.params.pointsCount ≤ a.points.length)
    (hwb : a.params.pointsCount ≤ b.points.length) :
    (TSummator.execute (some a) (some b) (some t) =
      .ok { points := (List.range a.params.pointsCount).foldl
              (fun ps i => ps.set i
                ⟨(pointD a i).x, (pointD a i).y + (pointD b i).y⟩)
              (List.replicate (pointsCountFrom sf d) ⟨0, 0⟩)
            params := { a.params with
              pointsCount := pointsCountFrom sf d } }) ∧
    (TMultiplier.execute (some a) (some b) (some t) =
      .ok { points := (List.range a.params.pointsCount).foldl
              (fun ps i => ps.set i
                ⟨(pointD a i).x, (pointD a i).y * (pointD b i).y⟩)
              (List.replicate (pointsCountFrom sf d) ⟨0, 0⟩)
            params := { a.params with
              pointsCount := pointsCountFrom sf d } }) ∧
    (∀ i, i < a.params.pointsCount →
      ((List.range a.params.pointsCount).foldl
          (fun (ps : List (Pt α)) (j : Nat) => ps.set j
            ⟨(pointD a j).x, (pointD a j).y + (pointD b j).y⟩)
          (List.replicate (pointsCountFrom sf d) ⟨0, 0⟩)).getD i ⟨0, 0⟩ =
        ⟨(pointD a i).x, (pointD a i).y + (pointD b i).y⟩) ∧
    (∀ i, a.params.pointsCount ≤ i →
      ((List.range a.params.pointsCount).foldl
          (fun (ps : List (Pt α)) (j : Nat) => ps.set j
            ⟨(pointD a j).x, (pointD a j).y + (pointD b j).y⟩)
          (List.replicate (pointsCountFrom sf d) ⟨0, 0⟩)).getD i ⟨0, 0⟩ =
        ⟨0, 0⟩) ∧
    (TSummator.execute (none : Option (TSignalLine α)) (some b) (some t) =
      .error .nullReference) ∧
    (TSummator.execute (some a) (none : Option (TSignalLine α)) (some t) =
      .error .nullReference) ∧
    (a.equalsE b (some t) = .ok false →
      TSummator.execute (some a) (some b) (some t) =
        .error .incompatibleSignals) := by
  have hofp := ofParams_auto a.params d sf hd hsf hd0 hsf0
  have hreplen : (List.replicate (pointsCountFrom sf d)
      (⟨0, 0⟩ : Pt α)).length = pointsCountFrom sf d := by simp
  refine ⟨?_, ?_, ?_, ?_, rfl, ?_, ?_⟩
  · unfold TSummator.execute
    dsimp only
    rw [heq, ok_bind, if_pos rfl, hofp, ok_bind]
    exact foldlM_writes (List.range a.params.pointsCount) _ (fun i => i)
      (fun i => ⟨(pointD a i).x, (pointD a i).y + (pointD b i).y⟩) _
      (by
        intro acc i hi _ _
        rw [List.mem_range] at hi
        dsimp only
        rw [getPointE_pointD (by omega), ok_bind,
          getPointE_pointD (by omega), ok_bind])
      (by
        intro i hi
        rw [List.mem_range] at hi
        dsimp only
        rw [hreplen]
        omega)
  · unfold TMultiplier.execute
    dsimp only
    rw [heq, ok_bind, if_pos rfl, hofp, ok_bind]
    exact foldlM_writes (List.range a.params.pointsCount) _ (fun i => i)
      (fun i => ⟨(pointD a i).x, (pointD a i).y * (pointD b i).y⟩) _
      (by
        intro acc i hi _ _
        rw [List.mem_range] at hi
        dsimp only
        rw [getPointE_pointD (by omega), ok_bind,
          getPointE_pointD (by omega), ok_bind])
      (by
        intro i hi
        rw [List.mem_range] at hi
        dsimp only
        rw [hreplen]
        omega)
  · intro i hi
    rw [foldl_set_range_getD_id]
    rw [if_pos ⟨hi, by rw [hreplen]; omega⟩]
  · intro i hi
    rw [foldl_set_range_getD_id]
    rw [if_neg (by omega)]
    rw [List.getD_eq_getElem?_getD]
    cases h : (List.replicate (pointsCountFrom sf d) (⟨0, 0⟩ : Pt α))[i]? with
    | none => rfl
    | some p =>
      have := List.getElem?_mem h
      rw [List.eq_of_mem_replicate this]
      rfl
  · rfl
  · intro hfalse
    unfold TSummator.execute
    dsimp only
    rw [hfalse, ok_bind]
    rfl

/-- Witness for C4: two 3-point default buffers over the rationals. -/
theorem C4_summator_multiplier_witness :
    (TSignalLine.equalsE (TSignalLine.ofPointsCount 3 : TSignalLine ℚ)
      (TSignalLine.ofPointsCount 3) (some 0) = .ok true) ∧
    (TSummator.execute (some (TSignalLine.ofPointsCount 3 : TSignalLine ℚ))
        (some (TSignalLine.ofPointsCount 3)) (some 0) =
      .ok { points := (List.range (TSignalLine.ofPointsCount 3 :
              TSignalLine ℚ).params.pointsCount).foldl
              (fun ps i => ps.set i
                ⟨(pointD (TSignalLine.ofPointsCount 3 : TSignalLine ℚ) i).x,
                  (pointD (TSignalLine.ofPointsCount 3 :
                    TSignalLine ℚ) i).y +
                  (pointD (TSignalLine.ofPointsCount 3 :
                    TSignalLine ℚ) i).y⟩)
              (List.replicate (pointsCountFrom (100 : ℚ) 1) ⟨0, 0⟩)
            params := { (TSignalLine.ofPointsCount 3 :
                TSignalLine ℚ).params with
              pointsCount := pointsCountFrom (100 : ℚ) 1 } }) := by
  have h := C4_summator_multiplier
    (TSignalLine.ofPointsCount 3 : TSignalLine ℚ)
    (TSignalLine.ofPointsCount 3) 0 1 100 (by decide) (by decide) (by decide)
    (by decide) (by decide) (by decide) (by decide) (by decide)
  exact ⟨by decide, h.1⟩

/-- Closed-form evaluation of a successful CentralOnly differentiation. -/
theorem differentiator_centralOnly_eval (sl : TSignalLine α) (nf : α)
    (pn : Bool)
    (hWF : sl.points.length = sl.params.pointsCount)
    (h2 : 2 ≤ sl.params.pointsCount)
    (hnf : TDifferentiator.normFactor pn sl.params = .ok nf) :
    TDifferentiator.execute (some sl) pn .centralOnly =
      .ok { points := (List.range' 1 (sl.params.pointsCount - 2)).foldl
              (fun ps i => ps.set (i - 1)
                (⟨(pointD sl (i - 1)).x,
                  ((pointD sl (i + 1)).y - (pointD sl (i - 1)).y) /
                    ((pointD sl (i + 1)).x - (pointD sl (i - 1)).x) / nf⟩ :
                  Pt α))
              (List.replicate (sl.params.pointsCount - 2) ⟨0, 0⟩)
            params := { sl.params with
              pointsCount := sl.params.pointsCount - 2 } } := by
  unfold TDifferentiator.execute
  dsimp only
  rw [if_neg (by omega)]
  rw [hnf, ok_bind, ofParams_preferPointsCount, ok_bind]
  exact foldlM_writes (List.range' 1 (sl.params.pointsCount - 2)) _
    (fun i => i - 1)
    (fun i => ⟨(pointD sl (i - 1)).x,
      ((pointD sl (i + 1)).y - (pointD sl (i - 1)).y) /
        ((pointD sl (i + 1)).x - (pointD sl (i - 1)).x) / nf⟩) _
    (by
      intro acc i hi _ _
      rw [List.mem_range'] at hi
      obtain ⟨j, hj, rfl⟩ := hi
      dsimp only
      rw [getPointE_pointD (by omega), ok_bind,
        getPointE_pointD (by omega), ok_bind])
    (by
      intro i hi
      rw [List.mem_range'] at hi
      obtain ⟨j, hj, rfl⟩ := hi
      dsimp only
      simp only [List.length_replicate]
      omega)

/-- Closed-form evaluation of a successful CentralAndEdges differentiation. -/
theorem differentiator_centralAndEdges_eval (sl : TSignalLine α) (nf : α)
    (pn : Bool)
    (hWF : sl.points.length = sl.params.pointsCount)
    (h2 : 2 ≤ sl.params.pointsCount)
    (hnf : TDifferentiator.normFactor pn sl.params = .ok nf) :
    TDifferentiator.execute (some sl) pn .centralAndEdges =
      .ok { points := (List.range' 1 (sl.params.pointsCount - 2)).foldl
              (fun ps i => ps.set i
                (⟨(pointD sl (i - 1)).x,
                  ((pointD sl (i + 1)).y - (pointD sl (i - 1)).y) /
                    ((pointD sl (i + 1)).x - (pointD sl (i - 1)).x) / nf⟩ :
                  Pt α))
              (((List.replicate sl.params.pointsCount (⟨0, 0⟩ : Pt α)).set 0
                  ⟨(pointD sl 0).x,
                    ((pointD sl 1).y - (pointD sl 0).y) /
                      ((pointD sl 1).x - (pointD sl 0).x) / nf⟩).set
                (sl.params.pointsCount - 1)
                ⟨(pointD sl (sl.params.pointsCount - 2)).x,
                  ((pointD sl (sl.params.pointsCount - 1)).y -
                    (pointD sl (sl.params.pointsCount - 2)).y) /
                    ((pointD sl (sl.params.pointsCount - 1)).x -
                      (pointD sl (sl.params.pointsCount - 2)).x) / nf⟩)
            params := sl.params } := by
  unfold TDifferentiator.execute
  dsimp only
  rw [if_neg (by omega)]
  rw [hnf, ok_bind]
  have hp : { sl.params with pointsCount := sl.params.pointsCount } =
      sl.params := rfl
  rw [ofParams_preferPointsCount, hp, ok_bind]
  rw [getPointE_pointD (by omega), ok_bind,
    getPointE_pointD (show 1 < sl.points.length by omega), ok_bind]
  have hset1 : TSignalLine.setPointE
      { points := List.replicate sl.params.pointsCount (⟨0, 0⟩ : Pt α)
        params := sl.params } 0 (pointD sl 0).x
      (((pointD sl 1).y - (pointD sl 0).y) /
        ((pointD sl 1).x - (pointD sl 0).x) / nf) =
      .ok { points := (List.replicate sl.params.pointsCount
              (⟨0, 0⟩ : Pt α)).set 0
              ⟨(pointD sl 0).x,
                ((pointD sl 1).y - (pointD sl 0).y) /
                  ((pointD sl 1).x - (pointD sl 0).x) / nf⟩
            params := sl.params } := by
    unfold TSignalLine.setPointE
    rw [if_pos (by simp; omega)]
  rw [hset1, ok_bind]
  rw [getPointE_pointD (show sl.params.pointsCount - 2 <
    sl.points.length by omega), ok_bind,
    getPointE_pointD (show sl.params.pointsCount - 1 <
    sl.points.length by omega), ok_bind]
  have hset2 : TSignalLine.setPointE
      { points := (List.replicate sl.params.pointsCount
          (⟨0, 0⟩ : Pt α)).set 0
          ⟨(pointD sl 0).x,
            ((pointD sl 1).y - (pointD sl 0).y) /
              ((pointD sl 1).x - (pointD sl 0).x) / nf⟩
        params := sl.params } (sl.params.pointsCount - 1)
      (pointD sl (sl.params.pointsCount - 2)).x
      (((pointD sl (sl.params.pointsCount - 1)).y -
        (pointD sl (sl.params.pointsCount - 2)).y) /
        ((pointD sl (sl.params.pointsCount - 1)).x -
          (pointD sl (sl.params.pointsCount - 2)).x) / nf) =
      .ok { points := ((List.replicate sl.params.pointsCount
              (⟨0, 0⟩ : Pt α)).set 0
              ⟨(pointD sl 0).x,
                ((pointD sl 1).y - (pointD sl 0).y) /
                  ((pointD sl 1).x - (pointD sl 0).x) / nf⟩).set
              (sl.params.pointsCount - 1)
              ⟨(pointD sl (sl.params.pointsCount - 2)).x,
                ((pointD sl (sl.params.pointsCount - 1)).y -
                  (pointD sl (sl.params.pointsCount - 2)).y) /
                  ((pointD sl (sl.params.pointsCount - 1)).x -
                    (pointD sl (sl.params.pointsCount - 2)).x) / nf⟩
            params := sl.params } := by
    unfold TSignalLine.setPointE
    rw [if_pos (by simp; omega)]
  rw [hset2, ok_bind]
  exact foldlM_writes (List.range' 1 (sl.params.pointsCount - 2)) _
    (fun i => i)
    (fun i => ⟨(pointD sl (i - 1)).x,
      ((pointD sl (i + 1)).y - (pointD sl (i - 1)).y) /
        ((pointD sl (i + 1)).x - (pointD sl (i - 1)).x) / nf⟩) _
    (by
      intro acc i hi _ _
      rw [List.mem_range'] at hi
      obtain ⟨j, hj, rfl⟩ := hi
      dsimp only
      rw [getPointE_pointD (by omega), ok_bind,
        getPointE_pointD (by omega), ok_bind])
    (by
      intro i hi
      rw [List.mem_range'] at hi
      obtain ⟨j, hj, rfl⟩ := hi
      dsimp only
      simp only [List.length_set, List.length_replicate]
      omega)

/-- C10 counterexample: on a 4-point input with x = 0,1,2,3, a successful
CentralAndEdges differentiation stores x coordinates 0, 0, 1, 2.  The final
two output points carry x[1] = 1 and x[2] = 2 - they do NOT both carry
x[pointsCount-2] = 2 as the claim asserts. -/
theorem C10_differentiator_x_counterexample :
    (TDifferentiator.execute
        (some (⟨[⟨0, 0⟩, ⟨1, 0⟩, ⟨2, 0⟩, ⟨3, 0⟩],
          { defaultParams with pointsCount := 4 }⟩ : TSignalLine ℚ))
        false .centralAndEdges).map (fun out => out.points.map Pt.x) =
      .ok [0, 0, 1, 2] ∧
    (1 : ℚ) ≠ 2 := by
  refine ⟨by decide, by decide⟩

/-- C10 (amended): every computed Differentiator output point stores the x
coordinate of the LEFT point of its stencil.  In CentralOnly mode output
index j (a central stencil over inputs j, j+2) carries x[j]; in
CentralAndEdges mode output index 0 carries x[0], every interior index i
(1 ≤ i ≤ pointsCount-2, central stencil over i-1 and i+1) carries x[i-1]
(so index 1 carries x[0] and the penultimate index carries x[pointsCount-3]),
and the last index carries x[pointsCount-2]; only the last output point -
not the final two - carries x[pointsCount-2]. -/
theorem C10_differentiator_x_coordinates (sl out : TSignalLine α) (pn : Bool)
    (m : DifferentiationMethod)
    (hWF : sl.points.length = sl.params.pointsCount)
    (h2 : 2 ≤ sl.params.pointsCount)
    (h : TDifferentiator.execute (some sl) pn m = .ok out) :
    (m = .centralOnly →
      ∀ j, j < sl.params.pointsCount - 2 →
        (pointD out j).x = (pointD sl j).x) ∧
    (m = .centralAndEdges →
      (pointD out 0).x = (pointD sl 0).x ∧
      (∀ i, 1 ≤ i → i ≤ sl.params.pointsCount - 2 →
        (pointD out i).x = (pointD sl (i - 1)).x) ∧
      (pointD out (sl.params.pointsCount - 1)).x =
        (pointD sl (sl.params.pointsCount - 2)).x) := by
  cases hnf : TDifferentiator.normFactor pn sl.params with
  | error e =>
    exfalso
    unfold TDifferentiator.execute at h
    dsimp only at h
    rw [if_neg (by omega), hnf] at h
    exact absurd h (by simp)
  | ok nf =>
    cases m with
    | centralOnly =>
      rw [differentiator_centralOnly_eval sl nf pn hWF h2 hnf] at h
      have hout := Except.ok.inj h
      subst hout
      refine ⟨?_, by intro hm; exact absurd hm (by simp)⟩
      intro _ j hj
      unfold pointD
      dsimp only
      rw [List.range'_eq_map_range, List.foldl_map]
      simp only [show ∀ k : Nat, 1 + k - 1 = k from fun k => by omega,
        show ∀ k : Nat, 1 + k + 1 = k + 2 from fun k => by omega]
      rw [foldl_set_range_getD_id]
      rw [if_pos ⟨hj, by simp; omega⟩]
    | centralAndEdges =>
      rw [differentiator_centralAndEdges_eval sl nf pn hWF h2 hnf] at h
      have hout := Except.ok.inj h
      subst hout
      refine ⟨by intro hm; exact absurd hm (by simp), ?_⟩
      intro _
      have hbase : ∀ k : Nat,
          ((((List.replicate sl.params.pointsCount (⟨0, 0⟩ : Pt α)).set 0
              ⟨(pointD sl 0).x,
                ((pointD sl 1).y - (pointD sl 0).y) /
                  ((pointD sl 1).x - (pointD sl 0).x) / nf⟩).set
            (sl.params.pointsCount - 1)
            ⟨(pointD sl (sl.params.pointsCount - 2)).x,
              ((pointD sl (sl.params.pointsCount - 1)).y -
                (pointD sl (sl.params.pointsCount - 2)).y) /
                ((pointD sl (sl.params.pointsCount - 1)).x -
                  (pointD sl (sl.params.pointsCount - 2)).x) / nf⟩)).getD k
            ⟨0, 0⟩ =
          (if sl.params.pointsCount - 1 = k then
            ⟨(pointD sl (sl.params.pointsCount - 2)).x,
              ((pointD sl (sl.params.pointsCount - 1)).y -
                (pointD sl (sl.params.pointsCount - 2)).y) /
                ((pointD sl (sl.params.pointsCount - 1)).x -
                  (pointD sl (sl.params.pointsCount - 2)).x) / nf⟩
          else if 0 = k ∧ k < sl.params.pointsCount then
            ⟨(pointD sl 0).x,
              ((pointD sl 1).y - (pointD sl 0).y) /
                ((pointD sl 1).x - (pointD sl 0).x) / nf⟩
          else ⟨0, 0⟩) := by
        intro k
        rw [getD_set]
        by_cases hk1 : sl.params.pointsCount - 1 = k
        · rw [if_pos ⟨hk1, by simp; omega⟩, if_pos hk1]
        · rw [if_neg (by intro hc; exact hk1 hc.1), if_neg hk1, getD_set]
          by_cases hk0 : 0 = k ∧ k < sl.params.pointsCount
          · rw [if_pos ⟨hk0.1, by simp; omega⟩, if_pos hk0]
          · rw [if_neg (by intro hc; exact hk0 ⟨hc.1, by
                have := hc.2; simp at this; omega⟩), if_neg hk0]
            rw [List.getD_eq_getElem?_getD]
            cases hrep : (List.replicate sl.params.pointsCount
                (⟨0, 0⟩ : Pt α))[k]? with
            | none => rfl
            | some p =>
              have := List.getElem?_mem hrep
              rw [List.eq_of_mem_replicate this]
              rfl
      have hfoldD : ∀ k : Nat, pointD
          { points := (List.range' 1 (sl.params.pointsCount - 2)).foldl
              (fun ps i => ps.set i
                (⟨(pointD sl (i - 1)).x,
                  ((pointD sl (i + 1)).y - (pointD sl (i - 1)).y) /
                    ((pointD sl (i + 1)).x - (pointD sl (i - 1)).x) / nf⟩ :
                  Pt α))
              (((List.replicate sl.params.pointsCount (⟨0, 0⟩ : Pt α)).set 0
                  ⟨(pointD sl 0).x,
                    ((pointD sl 1).y - (pointD sl 0).y) /
                      ((pointD sl 1).x - (pointD sl 0).x) / nf⟩).set
                (sl.params.pointsCount - 1)
                ⟨(pointD sl (sl.params.pointsCount - 2)).x,
                  ((pointD sl (sl.params.pointsCount - 1)).y -
                    (pointD sl (sl.params.pointsCount - 2)).y) /
                    ((pointD sl (sl.params.pointsCount - 1)).x -
                      (pointD sl (sl.params.pointsCount - 2)).x) / nf⟩)
            params := sl.params } k =
          if 1 ≤ k ∧ k < 1 + (sl.params.pointsCount - 2) then
            ⟨(pointD sl (k - 1)).x,
              ((pointD sl (k + 1)).y - (pointD sl (k - 1)).y) /
                ((pointD sl (k + 1)).x - (pointD sl (k - 1)).x) / nf⟩
          else if sl.params.pointsCount - 1 = k then
            ⟨(pointD sl (sl.params.pointsCount - 2)).x,
              ((pointD sl (sl.params.pointsCount - 1)).y -
                (pointD sl (sl.params.pointsCount - 2)).y) /
                ((pointD sl (sl.params.pointsCount - 1)).x -
                  (pointD sl (sl.params.pointsCount - 2)).x) / nf⟩
          else if 0 = k ∧ k < sl.params.pointsCount then
            ⟨(pointD sl 0).x,
              ((pointD sl 1).y - (pointD sl 0).y) /
                ((pointD sl 1).x - (pointD sl 0).x) / nf⟩
          else ⟨0, 0⟩ := by
        intro k
        rw [pointD_mk]
        rw [List.range'_eq_map_range, List.foldl_map]
        simp only [Nat.add_comm 1]
        rw [foldl_set_range_getD, hbase k]
        simp only [List.length_set, List.length_replicate]
        split_ifs <;> try omega
        all_goals try rfl
        all_goals
          rw [show k - 1 + 1 - 1 = k - 1 from by omega,
            show k - 1 + 1 + 1 = k + 1 from by omega]
      refine ⟨?_, ?_, ?_⟩
      · rw [hfoldD 0]
        rw [if_neg (by omega), if_neg (by omega),
          if_pos ⟨rfl, by omega⟩]
      · intro i hi1 hi2
        rw [hfoldD i]
        rw [if_pos ⟨hi1, by omega⟩]
      · rw [hfoldD (sl.params.pointsCount - 1)]
        rw [if_neg (by omega), if_pos rfl]

/-- Witness for C10: the 4-point buffer with x = 0,1,2,3. -/
theorem C10_differentiator_x_coordinates_witness :
    ((⟨[⟨0, 0⟩, ⟨1, 0⟩, ⟨2, 0⟩, ⟨3, 0⟩],
        { defaultParams with pointsCount := 4 }⟩ :
        TSignalLine ℚ).points.length =
      (⟨[⟨0, 0⟩, ⟨1, 0⟩, ⟨2, 0⟩, ⟨3, 0⟩],
        { defaultParams with pointsCount := 4 }⟩ :
        TSignalLine ℚ).params.pointsCount) ∧
    ((DifferentiationMethod.centralOnly = .centralOnly →
      ∀ j, j < (⟨[⟨0, 0⟩, ⟨1, 0⟩, ⟨2, 0⟩, ⟨3, 0⟩],
          { defaultParams with pointsCount := 4 }⟩ :
          TSignalLine ℚ).params.pointsCount - 2 →
        (pointD (⟨[⟨0, 0⟩, ⟨1, 0⟩], { defaultParams with
            pointsCount := 2 }⟩ : TSignalLine ℚ) j).x =
          (pointD (⟨[⟨0, 0⟩, ⟨1, 0⟩, ⟨2, 0⟩, ⟨3, 0⟩],
            { defaultParams with pointsCount := 4 }⟩ :
            TSignalLine ℚ) j).x) ∧
    (DifferentiationMethod.centralOnly = .centralAndEdges →
      (pointD (⟨[⟨0, 0⟩, ⟨1, 0⟩], { defaultParams with
          pointsCount := 2 }⟩ : TSignalLine ℚ) 0).x =
        (pointD (⟨[⟨0, 0⟩, ⟨1, 0⟩, ⟨2, 0⟩, ⟨3, 0⟩],
          { defaultParams with pointsCount := 4 }⟩ :
          TSignalLine ℚ) 0).x ∧
      (∀ i, 1 ≤ i → i ≤ (⟨[⟨0, 0⟩, ⟨1, 0⟩, ⟨2, 0⟩, ⟨3, 0⟩],
          { defaultParams with pointsCount := 4 }⟩ :
          TSignalLine ℚ).params.pointsCount - 2 →
        (pointD (⟨[⟨0, 0⟩, ⟨1, 0⟩], { defaultParams with
            pointsCount := 2 }⟩ : TSignalLine ℚ) i).x =
          (pointD (⟨[⟨0, 0⟩, ⟨1, 0⟩, ⟨2, 0⟩, ⟨3, 0⟩],
            { defaultParams with pointsCount := 4 }⟩ :
            TSignalLine ℚ) (i - 1)).x) ∧
      (pointD (⟨[⟨0, 0⟩, ⟨1, 0⟩], { defaultParams with
          pointsCount := 2 }⟩ : TSignalLine ℚ)
          ((⟨[⟨0, 0⟩, ⟨1, 0⟩, ⟨2, 0⟩, ⟨3, 0⟩],
            { defaultParams with pointsCount := 4 }⟩ :
            TSignalLine ℚ).params.pointsCount - 1)).x =
        (pointD (⟨[⟨0, 0⟩, ⟨1, 0⟩, ⟨2, 0⟩, ⟨3, 0⟩],
          { defaultParams with pointsCount := 4 }⟩ :
          TSignalLine ℚ)
          ((⟨[⟨0, 0⟩, ⟨1, 0⟩, ⟨2, 0⟩, ⟨3, 0⟩],
            { defaultParams with pointsCount := 4 }⟩ :
            TSignalLine ℚ).params.pointsCount - 2)).x)) :=
  ⟨by decide,
    C10_differentiator_x_coordinates
      (⟨[⟨0, 0⟩, ⟨1, 0⟩, ⟨2, 0⟩, ⟨3, 0⟩],
        { defaultParams with pointsCount := 4 }⟩ : TSignalLine ℚ)
      (⟨[⟨0, 0⟩, ⟨1, 0⟩], { defaultParams with pointsCount := 2 }⟩ :
        TSignalLine ℚ)
      false .centralOnly (by decide) (by decide) (by decide)⟩

/-- C7 counterexample: a buffer with engaged duration 1/100 whose squared
signal has a nonzero trapezoidal integral, on which Correlator(X, X, true)
does NOT successfully execute: the Multiplier rebuilds its output with
ceil(duration*samplingFrequency + 1) = 2 points and then writes index 2 out
of range. -/
theorem C7_self_correlation_counterexample :
    TIntegrator.execute
        (some (⟨[⟨0, 1⟩, ⟨1, 1⟩, ⟨2, 1⟩],
          { defaultParams with
              duration := some (1/100)
              pointsCount := 3 }⟩ : TSignalLine ℚ)) .trapezoidal = .ok 2 ∧
    (2 : ℚ) ≠ 0 ∧
    (⟨[⟨0, 1⟩, ⟨1, 1⟩, ⟨2, 1⟩],
      { defaultParams with duration := some (1/100), pointsCount := 3 }⟩ :
      TSignalLine ℚ).params.duration = some (1/100) ∧
    TCorrelator.execute ⟨fun _ => 0, fun _ => 0, fun _ => 0, fun x => x, 0⟩
        (some (⟨[⟨0, 1⟩, ⟨1, 1⟩, ⟨2, 1⟩],
          { defaultParams with
              duration := some (1/100)
              pointsCount := 3 }⟩ : TSignalLine ℚ))
        (some (⟨[⟨0, 1⟩, ⟨1, 1⟩, ⟨2, 1⟩],
          { defaultParams with
              duration := some (1/100)
              pointsCount := 3 }⟩ : TSignalLine ℚ))
        (some true) = .error .outOfRange := by
  refine ⟨by decide, by decide, by decide, by decide⟩

/-- C7 (amended): for a buffer X with positive duration d present whose
pointsCount matches the count recomputed from its duration and sampling
frequency (as every duration/samplingFrequency-constructed buffer does), if
the product pipeline succeeds with a squared-signal integral I such that
I/d is positive and the square root satisfies sqrt(I/d)*sqrt(I/d) = I/d,
then Correlator(X, X, normalize=true) succeeds and returns exactly 1: the
raw correlation I/d is divided by RMS(X)*RMS(X) computed by the identical
Multiplier-plus-trapezoidal-Integrator pipeline, and cancels. -/
theorem C7_self_correlation_one (ops : RealOps α) (a prod : TSignalLine α)
    (d I : α)
    (hd : a.params.duration = some d)
    (hprod : TMultiplier.execute (some a) (some a)
      (some DEFAULT_INACCURACY) = .ok prod)
    (hI : TIntegrator.execute (some prod) .trapezoidal = .ok I)
    (hIpos : 0 < I / d)
    (hs : ops.sqrt (I / d) * ops.sqrt (I / d) = I / d) :
    TCorrelator.execute ops (some a) (some a) (some true) = .ok 1 := by
  have hrms : TRMS.execute ops (some a) = .ok (ops.sqrt (I / d)) := by
    unfold TRMS.execute
    dsimp only
    rw [hd, hprod]
    simp only [ok_bind]
    rw [hI]
    simp only [ok_bind]
    rfl
  unfold TCorrelator.execute
  dsimp only
  rw [hd, hprod]
  simp only [ok_bind]
  rw [hI]
  simp only [ok_bind]
  rw [show (some true).getD true = true from rfl]
  rw [if_pos rfl, hrms]
  simp only [ok_bind]
  rw [hs, div_self (ne_of_gt hIpos)]
  rfl

/-- Witness for C7: the two-point constant-1 signal with duration 1 and
sampling frequency 1 over the rationals, with sqrt instantiated by the
identity (exact at the needed point 1). -/
theorem C7_self_correlation_one_witness :
    ((⟨[⟨0, 1⟩, ⟨1, 1⟩],
        { defaultParams with
            duration := some 1
            samplingFrequency := some 1
            pointsCount := 2 }⟩ :
      TSignalLine ℚ).params.duration = some 1) ∧
    (TCorrelator.execute
      (⟨fun _ => 0, fun _ => 0, fun _ => 0, fun x => x, 0⟩ : RealOps ℚ)
      (some (⟨[⟨0, 1⟩, ⟨1, 1⟩],
        { defaultParams with
            duration := some 1
            samplingFrequency := some 1
            pointsCount := 2 }⟩ : TSignalLine ℚ))
      (some (⟨[⟨0, 1⟩, ⟨1, 1⟩],
        { defaultParams with
            duration := some 1
            samplingFrequency := some 1
            pointsCount := 2 }⟩ : TSignalLine ℚ))
      (some true) = .ok 1) :=
  ⟨by decide,
    C7_self_correlation_one
      (⟨fun _ => 0, fun _ => 0, fun _ => 0, fun x => x, 0⟩ : RealOps ℚ)
      (⟨[⟨0, 1⟩, ⟨1, 1⟩],
        { defaultParams with
            duration := some 1
            samplingFrequency := some 1
            pointsCount := 2 }⟩ : TSignalLine ℚ)
      (⟨[⟨0, 1⟩, ⟨1, 1⟩],
        { defaultParams with
            duration := some 1
            samplingFrequency := some 1
            pointsCount := 2 }⟩ : TSignalLine ℚ)
      1 1 (by decide) (by decide) (by decide) (by decide) (by decide)⟩

theorem pointsCountFrom_1_1 : pointsCountFrom (1 : α) 1 = 2 := by
  unfold pointsCountFrom
  have h : (1 : α) * 1 + 1 = ((2 : ℤ) : α) := by norm_num
  rw [h, Int.ceil_intCast]
  rfl

/-- Evaluation of TGenerator construction followed by execute when the clamp
check passes and duration and sampling frequency are positive: pointsCount
is recomputed as ceil(duration*samplingFreq+1) and sample i is set to
(i/samplingFreq, yValue i). -/
theorem generator_execute_eval (ops : RealOps α) (p : TGeneratorParams α)
    (hck : TGenerator.checkClamp p.method p.clampValue = .ok ())
    (hd0 : 0 < p.duration) (hsf0 : 0 < p.samplingFreq) :
    TGenerator.execute ops p =
      .ok { points :=
              (List.range (pointsCountFrom p.samplingFreq p.duration)).foldl
                (fun ps i => ps.set i
                  ⟨(i : α) / p.samplingFreq, TGenerator.yValue ops p i⟩)
                (List.replicate (pointsCountFrom p.samplingFreq p.duration)
                  ⟨0, 0⟩)
            params :=
              { samplingFrequency := some p.samplingFreq
                duration := some p.duration
                oscillationFrequency := some p.oscillationFreq
                initPhase := some p.initPhase
                offsetY := some p.offsetY
                amplitude := some p.amplitude
                pointsCount := pointsCountFrom p.samplingFreq p.duration
                normalizeFactor := some (2 * ops.pi)
                maxValue := none
                minValue := none } } := by
  have hmk : TGenerator.make ops p =
      .ok { points :=
              List.replicate (pointsCountFrom p.samplingFreq p.duration)
                ⟨0, 0⟩
            params :=
              { samplingFrequency := some p.samplingFreq
                duration := some p.duration
                oscillationFrequency := some p.oscillationFreq
                initPhase := some p.initPhase
                offsetY := some p.offsetY
                amplitude := some p.amplitude
                pointsCount := pointsCountFrom p.samplingFreq p.duration
                normalizeFactor := some (2 * ops.pi)
                maxValue := none
                minValue := none } } := by
    unfold TGenerator.make
    rw [hck, ok_bind]
    exact ofParams_auto _ p.duration p.samplingFreq rfl rfl hd0 hsf0
  unfold TGenerator.execute
  rw [hmk, ok_bind]
  dsimp only
  have hfold := foldlM_writes
    (List.range (pointsCountFrom p.samplingFreq p.duration))
    (fun acc i =>
      acc.setPointE i ((i : α) / p.samplingFreq) (TGenerator.yValue ops p i))
    (fun i => i)
    (fun i => ⟨(i : α) / p.samplingFreq, TGenerator.yValue ops p i⟩)
    { points :=
        List.replicate (pointsCountFrom p.samplingFreq p.duration) ⟨0, 0⟩
      params :=
        { samplingFrequency := some p.samplingFreq
          duration := some p.duration
          oscillationFrequency := some p.oscillationFreq
          initPhase := some p.initPhase
          offsetY := some p.offsetY
          amplitude := some p.amplitude
          pointsCount := pointsCountFrom p.samplingFreq p.duration
          normalizeFactor := some (2 * ops.pi)
          maxValue := none
          minValue := none } }
    (fun acc i _ _ _ => rfl)
    (by
      intro i hi
      rw [List.mem_range] at hi
      simpa using hi)
  rw [hfold]

/-- C3 counterexample over ℝ: a cotangent wave with amplitude 2, initial
phase pi/4, oscillation frequency 0, sampling frequency 1, duration 1.  The
claim's formula (reciprocal of the tangent, times amplitude, clamped, then
offset) gives 2 at every sample, but the code computes
amplitude * (1/(amplitude*tan(pi/4))) = 1: the amplitude cancels out of the
cotangent branch. -/
theorem C3_generator_cotangent_counterexample :
    (TGenerator.execute
        (⟨Real.sin, Real.cos, Real.tan, Real.sqrt, Real.pi⟩ : RealOps ℝ)
        ⟨1, 1, 0, Real.pi / 4, 0, 2, .cotangentWave, some 10⟩).map
      (fun sl => sl.points.map Pt.y) = .ok [1, 1] ∧
    claimC3CotangentY
        (⟨Real.sin, Real.cos, Real.tan, Real.sqrt, Real.pi⟩ : RealOps ℝ)
        ⟨1, 1, 0, Real.pi / 4, 0, 2, .cotangentWave, some 10⟩ 0 = 2 ∧
    (1 : ℝ) ≠ 2 := by
  have hck : TGenerator.checkClamp (α := ℝ) GenerationMethod.cotangentWave
      (some 10) = .ok () := by
    show (if (10 : ℝ) < 0 then Except.error SPError.invalidParameter else
      pure ()) = Except.ok ()
    rw [if_neg (by norm_num)]
    rfl
  have hy : ∀ i : Nat,
      TGenerator.yValue
        (⟨Real.sin, Real.cos, Real.tan, Real.sqrt, Real.pi⟩ : RealOps ℝ)
        ⟨1, 1, 0, Real.pi / 4, 0, 2, .cotangentWave, some 10⟩ i = 1 := by
    intro i
    show TGenerator.clampTo 10
        (if |2 * Real.tan (2 * Real.pi * 0 / 1 * (i : ℝ) + Real.pi / 4)| <
            dblEpsilon then
          10 * (if 2 * Real.tan (2 * Real.pi * 0 / 1 * (i : ℝ) +
              Real.pi / 4) > 0 then (1 : ℝ) else -1)
        else 2 * (1 / (2 * Real.tan (2 * Real.pi * 0 / 1 * (i : ℝ) +
            Real.pi / 4)))) + 0 = 1
    rw [show 2 * Real.pi * 0 / 1 * (i : ℝ) + Real.pi / 4 = Real.pi / 4 by
      ring]
    rw [Real.tan_pi_div_four]
    rw [if_neg (show ¬ |(2 : ℝ) * 1| < dblEpsilon by
      unfold dblEpsilon; rw [abs_of_pos (by norm_num)]; norm_num)]
    unfold TGenerator.clampTo
    norm_num
  refine ⟨?_, ?_, by norm_num⟩
  · rw [generator_execute_eval _ _ hck (by norm_num) (by norm_num)]
    simp only [Except.map]
    rw [pointsCountFrom_1_1]
    simp only [List.range_succ, List.range_zero, List.nil_append,
      List.cons_append, List.foldl_append, List.foldl_cons, List.foldl_nil,
      List.replicate_succ, List.replicate_zero, List.set_cons_zero,
      List.set_cons_succ, List.map_cons, List.map_nil, Except.ok.injEq, hy]
  · unfold claimC3CotangentY
    dsimp only [Option.getD]
    rw [show 2 * Real.pi * 0 / 1 * ((0 : Nat) : ℝ) + Real.pi / 4 =
        Real.pi / 4 by push_cast; ring]
    rw [Real.tan_pi_div_four]
    unfold TGenerator.clampTo
    norm_num

/-- C3 (amended): a successful Generator execution samples x at i/fs; the
sine, cosine and tangent values are as the claim states, but in the
cotangent branch the amplitude cancels: away from the near-zero-tangent
guard the stored value is clamp(1/tan(arg)) + offset, NOT
clamp((1/tan(arg))*amplitude) + offset; inside the guard the substituted
value is plus-or-minus clamp (sign matching the tangent times amplitude),
clamped again, plus offset. -/
theorem C3_generator_waveforms (ops : RealOps α) (p : TGeneratorParams α)
    (out : TSignalLine α)
    (hck : TGenerator.checkClamp p.method p.clampValue = .ok ())
    (hd0 : 0 < p.duration) (hsf0 : 0 < p.samplingFreq)
    (h : TGenerator.execute ops p = .ok out) :
    out.points.length = pointsCountFrom p.samplingFreq p.duration ∧
    out.params.pointsCount = pointsCountFrom p.samplingFreq p.duration ∧
    ∀ i, i < out.points.length →
      (pointD out i).x = (i : α) / p.samplingFreq ∧
      (p.method = .sineWave →
        (pointD out i).y =
          p.amplitude * ops.sin (2 * ops.pi * p.oscillationFreq /
            p.samplingFreq * (i : α) + p.initPhase) + p.offsetY) ∧
      (p.method = .cosineWave →
        (pointD out i).y =
          p.amplitude * ops.cos (2 * ops.pi * p.oscillationFreq /
            p.samplingFreq * (i : α) + p.initPhase) + p.offsetY) ∧
      (p.method = .tangentWave → ∀ c, p.clampValue = some c →
        (pointD out i).y =
          TGenerator.clampTo c (p.amplitude * ops.tan (2 * ops.pi *
            p.oscillationFreq / p.samplingFreq * (i : α) + p.initPhase)) +
            p.offsetY) ∧
      (p.method = .cotangentWave → ∀ c, p.clampValue = some c →
        ((¬ |p.amplitude * ops.tan (2 * ops.pi * p.oscillationFreq /
              p.samplingFreq * (i : α) + p.initPhase)| < dblEpsilon →
          p.amplitude ≠ 0 →
          (pointD out i).y =
            TGenerator.clampTo c ((ops.tan (2 * ops.pi *
              p.oscillationFreq / p.samplingFreq * (i : α) +
                p.initPhase))⁻¹) + p.offsetY) ∧
         (|p.amplitude * ops.tan (2 * ops.pi * p.oscillationFreq /
              p.samplingFreq * (i : α) + p.initPhase)| < dblEpsilon →
          p.amplitude * ops.tan (2 * ops.pi * p.oscillationFreq /
              p.samplingFreq * (i : α) + p.initPhase) > 0 →
          (pointD out i).y =
            TGenerator.clampTo c (c * 1) + p.offsetY) ∧
         (|p.amplitude * ops.tan (2 * ops.pi * p.oscillationFreq /
              p.samplingFreq * (i : α) + p.initPhase)| < dblEpsilon →
          ¬ p.amplitude * ops.tan (2 * ops.pi * p.oscillationFreq /
              p.samplingFreq * (i : α) + p.initPhase) > 0 →
          (pointD out i).y =
            TGenerator.clampTo c (c * -1) + p.offsetY))) := by
  rw [generator_execute_eval ops p hck hd0 hsf0, Except.ok.injEq] at h
  subst h
  refine ⟨?_, rfl, ?_⟩
  · dsimp only
    rw [foldl_set_length]
    simp
  intro i hi
  dsimp only at hi
  rw [foldl_set_length, List.length_replicate] at hi
  have hrep : i < (List.replicate (pointsCountFrom p.samplingFreq p.duration)
      (⟨0, 0⟩ : Pt α)).length := by simpa using hi
  refine ⟨?_, ?_, ?_, ?_, ?_⟩
  · rw [pointD_mk, foldl_set_range_getD_id, if_pos ⟨hi, hrep⟩]
  · intro hm
    rw [pointD_mk, foldl_set_range_getD_id, if_pos ⟨hi, hrep⟩]
    dsimp only
    unfold TGenerator.yValue
    rw [hm]
  · intro hm
    rw [pointD_mk, foldl_set_range_getD_id, if_pos ⟨hi, hrep⟩]
    dsimp only
    unfold TGenerator.yValue
    rw [hm]
  · intro hm c hc
    rw [pointD_mk, foldl_set_range_getD_id, if_pos ⟨hi, hrep⟩]
    dsimp only
    unfold TGenerator.yValue
    rw [hm, hc]
    rfl
  · intro hm c hc
    refine ⟨?_, ?_, ?_⟩
    · intro hne hamp
      rw [pointD_mk, foldl_set_range_getD_id, if_pos ⟨hi, hrep⟩]
      dsimp only
      unfold TGenerator.yValue
      rw [hm, hc]
      dsimp only [Option.getD]
      rw [if_neg hne]
      rw [show p.amplitude * (1 / (p.amplitude * ops.tan (2 * ops.pi *
          p.oscillationFreq / p.samplingFreq * (i : α) + p.initPhase))) =
          (ops.tan (2 * ops.pi * p.oscillationFreq / p.samplingFreq *
            (i : α) + p.initPhase))⁻¹ from by
        rw [one_div, mul_inv_rev, mul_comm (ops.tan (2 * ops.pi *
          p.oscillationFreq / p.samplingFreq * (i : α) + p.initPhase))⁻¹
          p.amplitude⁻¹, ← mul_assoc, mul_inv_cancel₀ hamp, one_mul]]
    · intro heps hpos
      rw [pointD_mk, foldl_set_range_getD_id, if_pos ⟨hi, hrep⟩]
      dsimp only
      unfold TGenerator.yValue
      rw [hm, hc]
      dsimp only [Option.getD]
      rw [if_pos heps, if_pos hpos]
    · intro heps hpos
      rw [pointD_mk, foldl_set_range_getD_id, if_pos ⟨hi, hrep⟩]
      dsimp only
      unfold TGenerator.yValue
      rw [hm, hc]
      dsimp only [Option.getD]
      rw [if_pos heps, if_neg hpos]

set_option maxRecDepth 100000 in
/-- Witness for C3: the cotangent wave over ℚ with the tangent instantiated
by the constant-1 function, amplitude 2, clamp 10, sampling frequency 1,
duration 1.  Both stored samples are 1 = 1/tan, not 2 = amplitude/tan. -/
theorem C3_generator_waveforms_witness :
    (⟨[⟨0, 1⟩, ⟨1, 1⟩],
        ⟨some 1, some 1, some 0, some 0, some 0, some 2, 2, some 0, none,
          none⟩⟩ :
      TSignalLine ℚ).points.length = pointsCountFrom (1 : ℚ) 1 ∧
    (⟨[⟨0, 1⟩, ⟨1, 1⟩],
        ⟨some 1, some 1, some 0, some 0, some 0, some 2, 2, some 0, none,
          none⟩⟩ :
      TSignalLine ℚ).params.pointsCount = pointsCountFrom (1 : ℚ) 1 ∧
    ∀ i, i < (⟨[⟨0, 1⟩, ⟨1, 1⟩],
        ⟨some 1, some 1, some 0, some 0, some 0, some 2, 2, some 0, none,
          none⟩⟩ :
      TSignalLine ℚ).points.length →
      (pointD (⟨[⟨0, 1⟩, ⟨1, 1⟩],
          ⟨some 1, some 1, some 0, some 0, some 0, some 2, 2, some 0, none,
            none⟩⟩ :
        TSignalLine ℚ) i).x = (i : ℚ) / 1 ∧
      (GenerationMethod.cotangentWave = GenerationMethod.sineWave →
        (pointD (⟨[⟨0, 1⟩, ⟨1, 1⟩],
            ⟨some 1, some 1, some 0, some 0, some 0, some 2, 2, some 0,
              none, none⟩⟩ :
          TSignalLine ℚ) i).y = 2 * (0 : ℚ) + 0) ∧
      (GenerationMethod.cotangentWave = GenerationMethod.cosineWave →
        (pointD (⟨[⟨0, 1⟩, ⟨1, 1⟩],
            ⟨some 1, some 1, some 0, some 0, some 0, some 2, 2, some 0,
              none, none⟩⟩ :
          TSignalLine ℚ) i).y = 2 * (0 : ℚ) + 0) ∧
      (GenerationMethod.cotangentWave = GenerationMethod.tangentWave →
        ∀ c : ℚ, (some (10 : ℚ)) = some c →
        (pointD (⟨[⟨0, 1⟩, ⟨1, 1⟩],
            ⟨some 1, some 1, some 0, some 0, some 0, some 2, 2, some 0,
              none, none⟩⟩ :
          TSignalLine ℚ) i).y = TGenerator.clampTo c ((2 : ℚ) * 1) + 0) ∧
      (GenerationMethod.cotangentWave = GenerationMethod.cotangentWave →
        ∀ c : ℚ, (some (10 : ℚ)) = some c →
        ((¬ |(2 : ℚ) * 1| < dblEpsilon → (2 : ℚ) ≠ 0 →
          (pointD (⟨[⟨0, 1⟩, ⟨1, 1⟩],
              ⟨some 1, some 1, some 0, some 0, some 0, some 2, 2, some 0,
                none, none⟩⟩ :
            TSignalLine ℚ) i).y =
              TGenerator.clampTo c ((1 : ℚ))⁻¹ + 0) ∧
         (|(2 : ℚ) * 1| < dblEpsilon → (2 : ℚ) * 1 > 0 →
          (pointD (⟨[⟨0, 1⟩, ⟨1, 1⟩],
              ⟨some 1, some 1, some 0, some 0, some 0, some 2, 2, some 0,
                none, none⟩⟩ :
            TSignalLine ℚ) i).y =
              TGenerator.clampTo c (c * 1) + 0) ∧
         (|(2 : ℚ) * 1| < dblEpsilon → ¬ (2 : ℚ) * 1 > 0 →
          (pointD (⟨[⟨0, 1⟩, ⟨1, 1⟩],
              ⟨some 1, some 1, some 0, some 0, some 0, some 2, 2, some 0,
                none, none⟩⟩ :
            TSignalLine ℚ) i).y =
              TGenerator.clampTo c (c * -1) + 0))) :=
  C3_generator_waveforms
    (⟨fun _ => 0, fun _ => 0, fun _ => 1, fun x => x, 0⟩ : RealOps ℚ)
    ⟨1, 1, 0, 0, 0, 2, .cotangentWave, some 10⟩
    ⟨[⟨0, 1⟩, ⟨1, 1⟩],
      ⟨some 1, some 1, some 0, some 0, some 0, some 2, 2, some 0, none,
        none⟩⟩
    (by decide) (by decide) (by decide) (by decide)

theorem pointsCountFrom_2_1 : pointsCountFrom (2 : α) 1 = 3 := by
  unfold pointsCountFrom
  have h : (1 : α) * 2 + 1 = ((3 : ℤ) : α) := by norm_num
  rw [h, Int.ceil_intCast]
  rfl

/-- Inversion for a fold over `List.range n` whose step i computes a point
from i alone (possibly failing) and writes it at index i: a successful fold
preserves params and length, and every index below n holds the point its
step computed. -/
theorem foldlM_range_point_inv (n : Nat)
    (body : TSignalLine α → Nat → Except SPError (TSignalLine α))
    (g : Nat → Except SPError (Pt α)) (sl out : TSignalLine α)
    (hbody : ∀ acc i, i < n →
      body acc i = do
        let p ← g i
        acc.setPointE i p.x p.y)
    (h : (List.range n).foldlM body sl = .ok out) :
    out.params = sl.params ∧ out.points.length = sl.points.length ∧
      ∀ k, k < n → k < out.points.length →
        ∃ p, g k = .ok p ∧ pointD out k = p := by
  rw [List.range_eq_range'] at h
  suffices haux : ∀ (m a : Nat) (cur : TSignalLine α), a + m ≤ n →
      (List.range' a m).foldlM body cur = .ok out →
      out.params = cur.params ∧ out.points.length = cur.points.length ∧
        (∀ k, a ≤ k → k < a + m → k < out.points.length →
          ∃ p, g k = .ok p ∧ pointD out k = p) ∧
        (∀ k, k < a → pointD out k = pointD cur k) by
    obtain ⟨h1, h2, h3, _⟩ := haux n 0 sl (by omega) h
    exact ⟨h1, h2, fun k hkn hk => h3 k (by omega) (by omega) hk⟩
  intro m
  induction m with
  | zero =>
    intro a cur _ hfold
    simp only [List.range'_zero, List.foldlM_nil, pure_eq_ok,
      Except.ok.injEq] at hfold
    subst hfold
    exact ⟨rfl, rfl, fun k h1 h2 _ => by omega, fun k _ => rfl⟩
  | succ m ih =>
    intro a cur ham hfold
    rw [List.range'_succ, List.foldlM_cons] at hfold
    cases hb : body cur a with
    | error e => rw [hb] at hfold; simp at hfold
    | ok s1 =>
      rw [hb] at hfold
      simp only [ok_bind] at hfold
      have hba := hbody cur a (by omega)
      rw [hb] at hba
      cases hg : g a with
      | error e => rw [hg] at hba; simp at hba
      | ok p =>
        rw [hg, ok_bind] at hba
        have hba2 := hba.symm
        rw [setPointE_ok_iff] at hba2
        obtain ⟨hlt, hres⟩ := hba2
        obtain ⟨i1, i2, i3, i4⟩ := ih (a + 1) s1 (by omega) hfold
        have hs1p : s1.params = cur.params := by rw [hres]
        have hs1l : s1.points.length = cur.points.length := by
          rw [hres]; simp
        refine ⟨i1.trans hs1p, i2.trans hs1l, ?_, ?_⟩
        · intro k hak hkm hk
          by_cases hka : k = a
          · subst hka
            refine ⟨p, hg, ?_⟩
            rw [i4 k (by omega), hres]
            unfold pointD
            rw [getD_set, if_pos ⟨rfl, hlt⟩]
          · exact i3 k (by omega) (by omega) hk
        · intro k hka
          rw [i4 k (by omega), hres]
          unfold pointD
          rw [getD_set, if_neg (by omega)]

/-- Shape of a buffer produced by the (samplingFrequency, duration)
constructor: as many stored points as pointsCount. -/
theorem ofSamplingAndDuration_shape (sf d : α)
    (o1 o2 o3 o4 o5 : Option α) (sl : TSignalLine α)
    (h : TSignalLine.ofSamplingAndDuration sf d o1 o2 o3 o4 o5 = .ok sl) :
    sl.points.length = sl.params.pointsCount := by
  unfold TSignalLine.ofSamplingAndDuration at h
  by_cases h1 : d ≤ 0
  · rw [if_pos h1] at h; exact absurd h (by simp)
  rw [if_neg h1] at h
  by_cases h2 : sf ≤ 0
  · rw [if_pos h2] at h; exact absurd h (by simp)
  rw [if_neg h2] at h
  rw [Except.ok.injEq] at h
  subst h
  simp

/-- areCloseX returns true when the inaccuracy is nonnegative and the x
coordinates differ by at most the inaccuracy. -/
theorem areCloseX_true (p q : Pt α) (t : α) (ht : ¬ t < 0)
    (habs : |p.x - q.x| ≤ t) :
    TSignalLine.areCloseX p q (some t) = .ok true := by
  show (if t < 0 then Except.error SPError.invalidParameter else
    Except.ok (decide (|p.x - q.x| ≤ t))) = Except.ok true
  rw [if_neg ht, decide_eq_true habs]

/-- equals() returns true on equal pointsCounts and close first and last x
coordinates. -/
theorem equalsE_true (a b : TSignalLine α) (t : α)
    (hcnt : a.params.pointsCount = b.params.pointsCount)
    (ha0 : 0 < a.points.length) (hb0 : 0 < b.points.length)
    (hal : a.params.pointsCount - 1 < a.points.length)
    (hbl : a.params.pointsCount - 1 < b.points.length)
    (ht : ¬ t < 0)
    (h0 : |(pointD a 0).x - (pointD b 0).x| ≤ t)
    (h1 : |(pointD a (a.params.pointsCount - 1)).x -
      (pointD b (a.params.pointsCount - 1)).x| ≤ t) :
    a.equalsE b (some t) = .ok true := by
  unfold TSignalLine.equalsE
  rw [if_neg (by omega)]
  rw [getPointE_pointD ha0, ok_bind, getPointE_pointD hb0, ok_bind]
  rw [areCloseX_true _ _ _ ht h0, ok_bind, if_pos rfl]
  rw [getPointE_pointD hal, ok_bind, getPointE_pointD hbl, ok_bind]
  exact areCloseX_true _ _ _ ht h1

/-- Evaluation of a successful Multiplier execution (same computation as the
C++ TMultiplier::execute with the compatibility gate passed). -/
theorem multiplier_eval (a b : TSignalLine α) (t d sf : α)
    (heq : a.equalsE b (some t) = .ok true)
    (hd : a.params.duration = some d)
    (hsf : a.params.samplingFrequency = some sf)
    (hd0 : 0 < d) (hsf0 : 0 < sf)
    (hle : a.params.pointsCount ≤ pointsCountFrom sf d)
    (hwa : a.params.pointsCount ≤ a.points.length)
    (hwb : a.params.pointsCount ≤ b.points.length) :
    TMultiplier.execute (some a) (some b) (some t) =
      .ok { points := (List.range a.params.pointsCount).foldl
              (fun ps i => ps.set i
                ⟨(pointD a i).x, (pointD a i).y * (pointD b i).y⟩)
              (List.replicate (pointsCountFrom sf d) ⟨0, 0⟩)
            params := { a.params with
              pointsCount := pointsCountFrom sf d } } := by
  have hofp := ofParams_auto a.params d sf hd hsf hd0 hsf0
  have hreplen : (List.replicate (pointsCountFrom sf d)
      (⟨0, 0⟩ : Pt α)).length = pointsCountFrom sf d := by simp
  unfold TMultiplier.execute
  dsimp only
  rw [heq, ok_bind, if_pos rfl, hofp, ok_bind]
  exact foldlM_writes (List.range a.params.pointsCount) _ (fun i => i)
    (fun i => ⟨(pointD a i).x, (pointD a i).y * (pointD b i).y⟩) _
    (by
      intro acc i hi _ _
      rw [List.mem_range] at hi
      dsimp only
      rw [getPointE_pointD (by omega), ok_bind,
        getPointE_pointD (by omega), ok_bind])
    (by
      intro i hi
      rw [List.mem_range] at hi
      dsimp only
      rw [hreplen]
      omega)

/-- Evaluation of TRMS on explicit sub-results. -/
theorem rms_eval (ops : RealOps α) (s prod : TSignalLine α) (d I : α)
    (hd : s.params.duration = some d)
    (hprod : TMultiplier.execute (some s) (some s)
      (some DEFAULT_INACCURACY) = .ok prod)
    (hI : TIntegrator.execute (some prod) .trapezoidal = .ok I) :
    TRMS.execute ops (some s) = .ok (ops.sqrt (I / d)) := by
  unfold TRMS.execute
  dsimp only
  rw [hd, hprod]
  simp only [ok_bind]
  rw [hI]
  simp only [ok_bind]
  rfl

/-- Evaluation of the Correlator with normalization on explicit
sub-results: the raw correlation integral/d1 is divided by the product of
the two RMS values. -/
theorem correlator_eval_true (ops : RealOps α) (a b prod : TSignalLine α)
    (d1 d2 integral r1 r2 : α)
    (hd1 : a.params.duration = some d1)
    (hd2 : b.params.duration = some d2)
    (hprod : TMultiplier.execute (some a) (some b)
      (some DEFAULT_INACCURACY) = .ok prod)
    (hI : TIntegrator.execute (some prod) .trapezoidal = .ok integral)
    (hr1 : TRMS.execute ops (some a) = .ok r1)
    (hr2 : TRMS.execute ops (some b) = .ok r2) :
    TCorrelator.execute ops (some a) (some b) (some true) =
      .ok (integral / d1 / (r1 * r2)) := by
  unfold TCorrelator.execute
  dsimp only
  rw [hd1, hd2, hprod]
  simp only [ok_bind]
  rw [hI]
  simp only [ok_bind]
  rw [show (some true).getD true = true from rfl]
  rw [if_pos rfl, hr1]
  simp only [ok_bind]
  rw [hr2]
  simp only [ok_bind]
  rfl

/-- Evaluation of the Correlator without normalization: the raw correlation
integral/d1. -/
theorem correlator_eval_false (ops : RealOps α) (a b prod : TSignalLine α)
    (d1 d2 integral : α)
    (hd1 : a.params.duration = some d1)
    (hd2 : b.params.duration = some d2)
    (hprod : TMultiplier.execute (some a) (some b)
      (some DEFAULT_INACCURACY) = .ok prod)
    (hI : TIntegrator.execute (some prod) .trapezoidal = .ok integral) :
    TCorrelator.execute ops (some a) (some b) (some false) =
      .ok (integral / d1) := by
  unfold TCorrelator.execute
  dsimp only
  rw [hd1, hd2, hprod]
  simp only [ok_bind]
  rw [hI]
  simp only [ok_bind]
  rw [show (some false).getD true = false from rfl]
  rw [if_neg (by simp)]
  rfl

/-- Inversion of a successful normalized Correlator run into its pipeline
pieces, together with what the unnormalized run would return. -/
theorem correlator_true_inv (ops : RealOps α) (a b : TSignalLine α) (c : α)
    (h : TCorrelator.execute ops (some a) (some b) (some true) = .ok c) :
    ∃ d1 prod integral r1 r2,
      a.params.duration = some d1 ∧
      TMultiplier.execute (some a) (some b)
        (some DEFAULT_INACCURACY) = .ok prod ∧
      TIntegrator.execute (some prod) .trapezoidal = .ok integral ∧
      TRMS.execute ops (some a) = .ok r1 ∧
      TRMS.execute ops (some b) = .ok r2 ∧
      c = integral / d1 / (r1 * r2) ∧
      TCorrelator.execute ops (some a) (some b) (some false) =
        .ok (integral / d1) := by
  unfold TCorrelator.execute at h
  dsimp only at h
  cases hd1 : a.params.duration with
  | none =>
    rw [hd1] at h
    cases hd2 : b.params.duration with
    | none => rw [hd2] at h; simp at h
    | some d2 => rw [hd2] at h; simp at h
  | some d1 =>
    rw [hd1] at h
    cases hd2 : b.params.duration with
    | none => rw [hd2] at h; simp at h
    | some d2 =>
      rw [hd2] at h
      dsimp only at h
      cases hprod : TMultiplier.execute (some a) (some b)
          (some DEFAULT_INACCURACY) with
      | error e => rw [hprod] at h; simp at h
      | ok prod =>
        rw [hprod] at h
        simp only [ok_bind] at h
        cases hI : TIntegrator.execute (some prod) .trapezoidal with
        | error e => rw [hI] at h; simp at h
        | ok integral =>
          rw [hI] at h
          simp only [ok_bind] at h
          rw [show (some true).getD true = true from rfl, if_pos rfl] at h
          cases hr1 : TRMS.execute ops (some a) with
          | error e => rw [hr1] at h; simp at h
          | ok r1 =>
            rw [hr1] at h
            simp only [ok_bind] at h
            cases hr2 : TRMS.execute ops (some b) with
            | error e => rw [hr2] at h; simp at h
            | ok r2 =>
              rw [hr2] at h
              simp only [ok_bind, pure_eq_ok, Except.ok.injEq] at h
              exact ⟨d1, prod, integral, r1, r2, rfl, rfl, hI, rfl, rfl,
                h.symm,
                correlator_eval_false ops a b prod d1 d2 integral hd1 hd2
                  hprod hI⟩

/-- C1: the spectrum buffer of a successful FrequencyAnalyzer execution has
ceil((to-from)/step) + 1 points - one MORE than the claimed
ceil((to-from)/step) - because the double value ceil((to-from)/step) is
passed to the (samplingFrequency, duration = 1.0) constructor by overload
resolution, which allocates ceil(duration*samplingFrequency + 1) points; the
x coordinate at each index i is from + i*step as claimed. -/
theorem C1_spectrum_pointsCount (ops : RealOps α) (s out : TSignalLine α)
    (fromFrequency toFrequency stepFrequency : α)
    (useAbsoluteValue : Option Bool)
    (hrun : TFrequencyAnalyzer.run ops (some s) fromFrequency toFrequency
      stepFrequency useAbsoluteValue = .ok out) :
    out.params.pointsCount =
      (Int.ceil ((toFrequency - fromFrequency) / stepFrequency)).toNat + 1 ∧
    out.points.length = out.params.pointsCount ∧
    ∀ k, k < out.points.length →
      (pointD out k).x = fromFrequency + (k : α) * stepFrequency := by
  unfold TFrequencyAnalyzer.run at hrun
  by_cases hto : toFrequency ≤ fromFrequency
  · rw [if_pos hto] at hrun; exact absurd hrun (by simp)
  rw [if_neg hto] at hrun
  dsimp only at hrun
  cases hd : s.params.duration with
  | none => rw [hd] at hrun; simp at hrun
  | some d =>
    rw [hd] at hrun
    dsimp only at hrun
    cases hfs : s.params.samplingFrequency with
    | none => rw [hfs] at hrun; simp at hrun
    | some fs =>
      rw [hfs] at hrun
      dsimp only at hrun
      cases hsl0 : TSignalLine.ofSamplingAndDuration
          (((Int.ceil ((toFrequency - fromFrequency) / stepFrequency) :
            ℤ) : α)) 1 (some 1) (some 0) (some 0) (some 1) (some 1) with
      | error e => rw [hsl0] at hrun; simp at hrun
      | ok sl0 =>
        rw [hsl0] at hrun
        simp only [ok_bind] at hrun
        cases hdc0 : TSignalLine.ofCopyWithOffset s 0 0 with
        | error e => rw [hdc0] at hrun; simp at hrun
        | ok dc0 =>
          rw [hdc0] at hrun
          simp only [ok_bind] at hrun
          cases hdc : dc0.removeDCComponent (some DEFAULT_INACCURACY) with
          | error e => rw [hdc] at hrun; simp at hrun
          | ok dc =>
            rw [hdc] at hrun
            simp only [ok_bind] at hrun
            unfold TSignalLine.ofSamplingAndDuration at hsl0
            rw [if_neg (by norm_num : ¬ (1 : α) ≤ 0)] at hsl0
            by_cases hA : ((Int.ceil ((toFrequency - fromFrequency) /
                stepFrequency) : ℤ) : α) ≤ 0
            · rw [if_pos hA] at hsl0; simp at hsl0
            rw [if_neg hA] at hsl0
            rw [Except.ok.injEq] at hsl0
            have hm : 0 < Int.ceil ((toFrequency - fromFrequency) /
                stepFrequency) := by
              have := not_le.mp hA
              exact_mod_cast this
            have hcount : pointsCountFrom
                (((Int.ceil ((toFrequency - fromFrequency) /
                  stepFrequency) : ℤ) : α)) 1 =
                (Int.ceil ((toFrequency - fromFrequency) /
                  stepFrequency)).toNat + 1 := by
              unfold pointsCountFrom
              rw [show (1 : α) * ((Int.ceil ((toFrequency - fromFrequency) /
                  stepFrequency) : ℤ) : α) + 1 =
                  (((Int.ceil ((toFrequency - fromFrequency) /
                    stepFrequency) + 1 : ℤ)) : α) by push_cast; ring]
              rw [Int.ceil_intCast]
              omega
            obtain ⟨hp, hl, hx⟩ := foldlM_range_x_inv
              sl0.params.pointsCount _
              (fun i => fromFrequency + (i : α) * stepFrequency) sl0 out
              (by
                intro acc i res hi hb
                cases hg : TGenerator.execute ops
                    { samplingFreq := fs
                      duration := d
                      oscillationFreq := fromFrequency +
                        (i : α) * stepFrequency
                      initPhase := 0
                      offsetY := 0
                      amplitude := 1
                      method := .sineWave
                      clampValue := some 10 } with
                | error e => rw [hg] at hb; simp at hb
                | ok gsl =>
                  rw [hg] at hb
                  simp only [ok_bind] at hb
                  cases hc : TCorrelator.execute ops (some dc) (some gsl)
                      (some true) with
                  | error e => rw [hc] at hb; simp at hb
                  | ok c =>
                    rw [hc] at hb
                    simp only [ok_bind] at hb
                    rw [setPointE_ok_iff] at hb
                    exact ⟨_, hb.1, hb.2⟩)
              hrun
            have hshape : sl0.points.length = sl0.params.pointsCount := by
              rw [← hsl0]; simp
            have hc2 : sl0.params.pointsCount =
                (Int.ceil ((toFrequency - fromFrequency) /
                  stepFrequency)).toNat + 1 := by
              rw [← hsl0, ← hcount]
            refine ⟨by rw [hp, hc2], by rw [hl, hshape, hp], ?_⟩
            intro k hk
            have hkn : k < sl0.params.pointsCount := by
              rw [hl, hshape] at hk
              exact hk
            exact hx k hkn hk

/-- C2 (amended): the value the FrequencyAnalyzer stores at each spectrum
index is the NORMALIZED correlation of the DC-removed copy dc of the input
against the generated unit-amplitude zero-phase sine reference: the
trapezoidal integral of their product divided by dc's duration AND then
further divided by the product of the two signals' RMS values (the
TCorrelator is invoked with its default performNormalization = true), with
the absolute value applied when the flag is on; the raw correlation -
integral/duration alone - is what TCorrelator with performNormalization =
false would return. -/
theorem C2_spectrum_normalized (ops : RealOps α)
    (s dc0 dc out : TSignalLine α)
    (fromFrequency toFrequency stepFrequency : α)
    (useAbsoluteValue : Option Bool)
    (hrun : TFrequencyAnalyzer.run ops (some s) fromFrequency toFrequency
      stepFrequency useAbsoluteValue = .ok out)
    (hdc0 : TSignalLine.ofCopyWithOffset s 0 0 = .ok dc0)
    (hdc : dc0.removeDCComponent (some DEFAULT_INACCURACY) = .ok dc) :
    ∀ k, k < out.points.length →
      (pointD out k).x = fromFrequency + (k : α) * stepFrequency ∧
      ∃ genSL c d1 prod integral r1 r2,
        (∃ d fs, s.params.duration = some d ∧
          s.params.samplingFrequency = some fs ∧
          TGenerator.execute ops
            { samplingFreq := fs
              duration := d
              oscillationFreq := fromFrequency + (k : α) * stepFrequency
              initPhase := 0
              offsetY := 0
              amplitude := 1
              method := .sineWave
              clampValue := some 10 } = .ok genSL) ∧
        TCorrelator.execute ops (some dc) (some genSL) (some true) =
          .ok c ∧
        (pointD out k).y =
          (if useAbsoluteValue.getD false then |c| else c) ∧
        dc.params.duration = some d1 ∧
        TMultiplier.execute (some dc) (some genSL)
          (some DEFAULT_INACCURACY) = .ok prod ∧
        TIntegrator.execute (some prod) .trapezoidal = .ok integral ∧
        TRMS.execute ops (some dc) = .ok r1 ∧
        TRMS.execute ops (some genSL) = .ok r2 ∧
        c = integral / d1 / (r1 * r2) ∧
        TCorrelator.execute ops (some dc) (some genSL) (some false) =
          .ok (integral / d1) := by
  unfold TFrequencyAnalyzer.run at hrun
  by_cases hto : toFrequency ≤ fromFrequency
  · rw [if_pos hto] at hrun; exact absurd hrun (by simp)
  rw [if_neg hto] at hrun
  dsimp only at hrun
  cases hd : s.params.duration with
  | none => rw [hd] at hrun; simp at hrun
  | some d =>
    rw [hd] at hrun
    dsimp only at hrun
    cases hfs : s.params.samplingFrequency with
    | none => rw [hfs] at hrun; simp at hrun
    | some fs =>
      rw [hfs] at hrun
      dsimp only at hrun
      cases hsl0 : TSignalLine.ofSamplingAndDuration
          (((Int.ceil ((toFrequency - fromFrequency) / stepFrequency) :
            ℤ) : α)) 1 (some 1) (some 0) (some 0) (some 1) (some 1) with
      | error e => rw [hsl0] at hrun; simp at hrun
      | ok sl0 =>
        rw [hsl0] at hrun
        simp only [ok_bind] at hrun
        rw [hdc0] at hrun
        simp only [ok_bind] at hrun
        rw [hdc] at hrun
        simp only [ok_bind] at hrun
        obtain ⟨hp, hl, hpts⟩ := foldlM_range_point_inv
          sl0.params.pointsCount _
          (fun i => do
            let genSL ← TGenerator.execute ops
              { samplingFreq := fs
                duration := d
                oscillationFreq := fromFrequency + (i : α) * stepFrequency
                initPhase := 0
                offsetY := 0
                amplitude := 1
                method := .sineWave
                clampValue := some 10 }
            let c ← TCorrelator.execute ops (some dc) (some genSL)
              (some true)
            pure (⟨fromFrequency + (i : α) * stepFrequency,
              if useAbsoluteValue.getD false then |c| else c⟩ : Pt α))
          sl0 out
          (by
            intro acc i _
            dsimp only
            cases TGenerator.execute ops
                { samplingFreq := fs
                  duration := d
                  oscillationFreq := fromFrequency + (i : α) * stepFrequency
                  initPhase := 0
                  offsetY := 0
                  amplitude := 1
                  method := .sineWave
                  clampValue := some 10 } with
            | error e => simp only [error_bind]
            | ok gsl =>
              simp only [ok_bind]
              cases TCorrelator.execute ops (some dc) (some gsl)
                  (some true) with
              | error e => simp only [error_bind]
              | ok c =>
                simp only [ok_bind, pure_eq_ok])
          hrun
        intro k hk
        have hshape := ofSamplingAndDuration_shape _ _ _ _ _ _ _ _ hsl0
        have hkn : k < sl0.params.pointsCount := by
          rw [hl, hshape] at hk
          exact hk
        obtain ⟨p, hg, hout⟩ := hpts k hkn (by rw [hl, hshape]; exact hkn)
        cases hgen : TGenerator.execute ops
            { samplingFreq := fs
              duration := d
              oscillationFreq := fromFrequency + (k : α) * stepFrequency
              initPhase := 0
              offsetY := 0
              amplitude := 1
              method := .sineWave
              clampValue := some 10 } with
        | error e => rw [hgen] at hg; simp at hg
        | ok gsl =>
          rw [hgen] at hg
          simp only [ok_bind] at hg
          cases hcorr : TCorrelator.execute ops (some dc) (some gsl)
              (some true) with
          | error e => rw [hcorr] at hg; simp at hg
          | ok c =>
            rw [hcorr] at hg
            simp only [ok_bind, pure_eq_ok, Except.ok.injEq] at hg
            obtain ⟨d1, prod, integral, r1, r2, hdur1, hprod, hI, hr1, hr2,
              hcval, hfalse⟩ := correlator_true_inv ops dc gsl c hcorr
            refine ⟨?_, gsl, c, d1, prod, integral, r1, r2,
              ⟨d, fs, rfl, rfl, hgen⟩, hcorr, ?_, hdur1, hprod, hI, hr1, hr2,
              hcval, hfalse⟩
            · rw [hout, ← hg]
            · rw [hout, ← hg]

set_option maxRecDepth 1000000 in
/-- Witness for C1: a concrete 3-point rational input analyzed from 1/2 to 1
with step 1: the claim expects ceil((1 - 1/2)/1) = 1 spectrum point, the
code produces ceil((1-1/2)/1) + 1 = 2. -/
theorem C1_spectrum_pointsCount_witness :
    (TFrequencyAnalyzer.run
      (⟨fun _ => 0, fun _ => 0, fun _ => 1, fun x => x, 0⟩ : RealOps ℚ)
      (some (⟨[⟨0, 0⟩, ⟨1/2, 1⟩, ⟨1, -1⟩],
        ⟨some 2, some 1, some 1, some 0, some 0, some 1, 3, some 1, none,
          none⟩⟩ : TSignalLine ℚ))
      (1/2) 1 1 none =
      .ok (⟨[⟨1/2, 0⟩, ⟨3/2, 0⟩],
        ⟨some 1, some 1, some 1, some 0, some 0, some 1, 2, some 1, none,
          none⟩⟩ : TSignalLine ℚ)) ∧
    ((⟨[⟨1/2, 0⟩, ⟨3/2, 0⟩],
        ⟨some 1, some 1, some 1, some 0, some 0, some 1, 2, some 1, none,
          none⟩⟩ : TSignalLine ℚ)).params.pointsCount =
      (Int.ceil (((1 : ℚ) - 1/2) / 1)).toNat + 1 ∧
    ((⟨[⟨1/2, 0⟩, ⟨3/2, 0⟩],
        ⟨some 1, some 1, some 1, some 0, some 0, some 1, 2, some 1, none,
          none⟩⟩ : TSignalLine ℚ)).points.length =
      ((⟨[⟨1/2, 0⟩, ⟨3/2, 0⟩],
        ⟨some 1, some 1, some 1, some 0, some 0, some 1, 2, some 1, none,
          none⟩⟩ : TSignalLine ℚ)).params.pointsCount ∧
    ∀ k, k < ((⟨[⟨1/2, 0⟩, ⟨3/2, 0⟩],
        ⟨some 1, some 1, some 1, some 0, some 0, some 1, 2, some 1, none,
          none⟩⟩ : TSignalLine ℚ)).points.length →
      (pointD (⟨[⟨1/2, 0⟩, ⟨3/2, 0⟩],
        ⟨some 1, some 1, some 1, some 0, some 0, some 1, 2, some 1, none,
          none⟩⟩ : TSignalLine ℚ) k).x = 1/2 + (k : ℚ) * 1 :=
  ⟨by decide,
    C1_spectrum_pointsCount
      (⟨fun _ => 0, fun _ => 0, fun _ => 1, fun x => x, 0⟩ : RealOps ℚ)
      (⟨[⟨0, 0⟩, ⟨1/2, 1⟩, ⟨1, -1⟩],
        ⟨some 2, some 1, some 1, some 0, some 0, some 1, 3, some 1, none,
          none⟩⟩ : TSignalLine ℚ)
      (⟨[⟨1/2, 0⟩, ⟨3/2, 0⟩],
        ⟨some 1, some 1, some 1, some 0, some 0, some 1, 2, some 1, none,
          none⟩⟩ : TSignalLine ℚ)
      (1/2) 1 1 none (by decide)⟩

set_option maxRecDepth 1000000 in
/-- Witness for C2: the same rational FrequencyAnalyzer run; every stored
spectrum value decomposes as (integral/duration)/(r1*r2) - normalized - with
the unnormalized Correlator returning integral/duration. -/
theorem C2_spectrum_normalized_witness :
    (TSignalLine.ofCopyWithOffset
      (⟨[⟨0, 0⟩, ⟨1/2, 1⟩, ⟨1, -1⟩],
        ⟨some 2, some 1, some 1, some 0, some 0, some 1, 3, some 1, none,
          none⟩⟩ : TSignalLine ℚ) 0 0 =
      .ok (⟨[⟨0, 0⟩, ⟨1/2, 1⟩, ⟨1, -1⟩],
        ⟨some 2, some 1, some 1, some 0, none, some 1, 3, some 1, none,
          none⟩⟩ : TSignalLine ℚ)) ∧
    (TSignalLine.removeDCComponent
      (⟨[⟨0, 0⟩, ⟨1/2, 1⟩, ⟨1, -1⟩],
        ⟨some 2, some 1, some 1, some 0, none, some 1, 3, some 1, none,
          none⟩⟩ : TSignalLine ℚ) (some DEFAULT_INACCURACY) =
      .ok (⟨[⟨0, 0⟩, ⟨1/2, 1⟩, ⟨1, -1⟩],
        ⟨some 2, some 1, some 1, some 0, none, some 1, 3, some 1, some 1,
          some (-1)⟩⟩ : TSignalLine ℚ)) ∧
    ∀ k, k < ((⟨[⟨1/2, 0⟩, ⟨3/2, 0⟩],
        ⟨some 1, some 1, some 1, some 0, some 0, some 1, 2, some 1, none,
          none⟩⟩ : TSignalLine ℚ)).points.length →
      (pointD (⟨[⟨1/2, 0⟩, ⟨3/2, 0⟩],
        ⟨some 1, some 1, some 1, some 0, some 0, some 1, 2, some 1, none,
          none⟩⟩ : TSignalLine ℚ) k).x = 1/2 + (k : ℚ) * 1 ∧
      ∃ genSL c d1 prod integral r1 r2,
        (∃ d fs, (some (1 : ℚ)) = some d ∧ (some (2 : ℚ)) = some fs ∧
          TGenerator.execute
            (⟨fun _ => 0, fun _ => 0, fun _ => 1, fun x => x, 0⟩ :
              RealOps ℚ)
            { samplingFreq := fs
              duration := d
              oscillationFreq := 1/2 + (k : ℚ) * 1
              initPhase := 0
              offsetY := 0
              amplitude := 1
              method := .sineWave
              clampValue := some 10 } = .ok genSL) ∧
        TCorrelator.execute
          (⟨fun _ => 0, fun _ => 0, fun _ => 1, fun x => x, 0⟩ : RealOps ℚ)
          (some (⟨[⟨0, 0⟩, ⟨1/2, 1⟩, ⟨1, -1⟩],
            ⟨some 2, some 1, some 1, some 0, none, some 1, 3, some 1,
              some 1, some (-1)⟩⟩ : TSignalLine ℚ))
          (some genSL) (some true) = .ok c ∧
        (pointD (⟨[⟨1/2, 0⟩, ⟨3/2, 0⟩],
          ⟨some 1, some 1, some 1, some 0, some 0, some 1, 2, some 1, none,
            none⟩⟩ : TSignalLine ℚ) k).y =
          (if (none : Option Bool).getD false then |c| else c) ∧
        ((⟨[⟨0, 0⟩, ⟨1/2, 1⟩, ⟨1, -1⟩],
          ⟨some 2, some 1, some 1, some 0, none, some 1, 3, some 1, some 1,
            some (-1)⟩⟩ : TSignalLine ℚ)).params.duration = some d1 ∧
        TMultiplier.execute
          (some (⟨[⟨0, 0⟩, ⟨1/2, 1⟩, ⟨1, -1⟩],
            ⟨some 2, some 1, some 1, some 0, none, some 1, 3, some 1,
              some 1, some (-1)⟩⟩ : TSignalLine ℚ))
          (some genSL) (some DEFAULT_INACCURACY) = .ok prod ∧
        TIntegrator.execute (some prod) .trapezoidal = .ok integral ∧
        TRMS.execute
          (⟨fun _ => 0, fun _ => 0, fun _ => 1, fun x => x, 0⟩ : RealOps ℚ)
          (some (⟨[⟨0, 0⟩, ⟨1/2, 1⟩, ⟨1, -1⟩],
            ⟨some 2, some 1, some 1, some 0, none, some 1, 3, some 1,
              some 1, some (-1)⟩⟩ : TSignalLine ℚ)) = .ok r1 ∧
        TRMS.execute
          (⟨fun _ => 0, fun _ => 0, fun _ => 1, fun x => x, 0⟩ : RealOps ℚ)
          (some genSL) = .ok r2 ∧
        c = integral / d1 / (r1 * r2) ∧
        TCorrelator.execute
          (⟨fun _ => 0, fun _ => 0, fun _ => 1, fun x => x, 0⟩ : RealOps ℚ)
          (some (⟨[⟨0, 0⟩, ⟨1/2, 1⟩, ⟨1, -1⟩],
            ⟨some 2, some 1, some 1, some 0, none, some 1, 3, some 1,
              some 1, some (-1)⟩⟩ : TSignalLine ℚ))
          (some genSL) (some false) = .ok (integral / d1) :=
  ⟨by decide, by decide,
    C2_spectrum_normalized
      (⟨fun _ => 0, fun _ => 0, fun _ => 1, fun x => x, 0⟩ : RealOps ℚ)
      (⟨[⟨0, 0⟩, ⟨1/2, 1⟩, ⟨1, -1⟩],
        ⟨some 2, some 1, some 1, some 0, some 0, some 1, 3, some 1, none,
          none⟩⟩ : TSignalLine ℚ)
      (⟨[⟨0, 0⟩, ⟨1/2, 1⟩, ⟨1, -1⟩],
        ⟨some 2, some 1, some 1, some 0, none, some 1, 3, some 1, none,
          none⟩⟩ : TSignalLine ℚ)
      (⟨[⟨0, 0⟩, ⟨1/2, 1⟩, ⟨1, -1⟩],
        ⟨some 2, some 1, some 1, some 0, none, some 1, 3, some 1, some 1,
          some (-1)⟩⟩ : TSignalLine ℚ)
      (⟨[⟨1/2, 0⟩, ⟨3/2, 0⟩],
        ⟨some 1, some 1, some 1, some 0, some 0, some 1, 2, some 1, none,
          none⟩⟩ : TSignalLine ℚ)
      (1/2) 1 1 none (by decide) (by decide) (by decide)⟩

/-- C2 counterexample over ℝ: a FrequencyAnalyzer run on the 3-point input
(x = 0, 1/2, 1; y = 0, 1, -1; duration 1, sampling frequency 2), analyzed
from frequency 1/2 to 1 with step 1 and genuine sine/sqrt.  The raw
correlation of the DC-removed copy with the generated sine reference at
frequency 1/2 is 1/2, but the spectrum stores
(1/2)/(sqrt(3/4)*sqrt(1/2)) - the RMS-normalized correlation - which
differs from 1/2. -/
theorem C2_spectrum_normalization_counterexample :
    (TFrequencyAnalyzer.run
      (⟨Real.sin, Real.cos, Real.tan, Real.sqrt, Real.pi⟩ : RealOps ℝ)
      (some (⟨[⟨0, 0⟩, ⟨1/2, 1⟩, ⟨1, -1⟩],
        ⟨some 2, some 1, some 1, some 0, some 0, some 1, 3, some 1, none,
          none⟩⟩ : TSignalLine ℝ))
      (1/2) 1 1 none =
      .ok (⟨[⟨1/2, 1/2 / 1 / (Real.sqrt (3/4 / 1) * Real.sqrt (1/2 / 1))⟩,
             ⟨3/2,
              -(1/2) / 1 / (Real.sqrt (3/4 / 1) * Real.sqrt (1/2 / 1))⟩],
        ⟨some 1, some 1, some 1, some 0, some 0, some 1, 2, some 1, none,
          none⟩⟩ : TSignalLine ℝ)) ∧
    (TSignalLine.ofCopyWithOffset
      (⟨[⟨0, 0⟩, ⟨1/2, 1⟩, ⟨1, -1⟩],
        ⟨some 2, some 1, some 1, some 0, some 0, some 1, 3, some 1, none,
          none⟩⟩ : TSignalLine ℝ) 0 0 =
      .ok (⟨[⟨0, 0⟩, ⟨1/2, 1⟩, ⟨1, -1⟩],
        ⟨some 2, some 1, some 1, some 0, none, some 1, 3, some 1, none,
          none⟩⟩ : TSignalLine ℝ)) ∧
    (TSignalLine.removeDCComponent
      (⟨[⟨0, 0⟩, ⟨1/2, 1⟩, ⟨1, -1⟩],
        ⟨some 2, some 1, some 1, some 0, none, some 1, 3, some 1, none,
          none⟩⟩ : TSignalLine ℝ) (some DEFAULT_INACCURACY) =
      .ok (⟨[⟨0, 0⟩, ⟨1/2, 1⟩, ⟨1, -1⟩],
        ⟨some 2, some 1, some 1, some 0, none, some 1, 3, some 1, some 1,
          some (-1)⟩⟩ : TSignalLine ℝ)) ∧
    (TGenerator.execute
      (⟨Real.sin, Real.cos, Real.tan, Real.sqrt, Real.pi⟩ : RealOps ℝ)
      ⟨2, 1, 1/2, 0, 0, 1, .sineWave, some 10⟩ =
      .ok (⟨[⟨0, 0⟩, ⟨1/2, 1⟩, ⟨1, 0⟩],
        ⟨some 2, some 1, some (1/2), some 0, some 0, some 1, 3,
          some (2 * Real.pi), none, none⟩⟩ : TSignalLine ℝ)) ∧
    (TCorrelator.execute
      (⟨Real.sin, Real.cos, Real.tan, Real.sqrt, Real.pi⟩ : RealOps ℝ)
      (some (⟨[⟨0, 0⟩, ⟨1/2, 1⟩, ⟨1, -1⟩],
        ⟨some 2, some 1, some 1, some 0, none, some 1, 3, some 1, some 1,
          some (-1)⟩⟩ : TSignalLine ℝ))
      (some (⟨[⟨0, 0⟩, ⟨1/2, 1⟩, ⟨1, 0⟩],
        ⟨some 2, some 1, some (1/2), some 0, some 0, some 1, 3,
          some (2 * Real.pi), none, none⟩⟩ : TSignalLine ℝ))
      (some false) = .ok (1/2)) ∧
    1/2 / 1 / (Real.sqrt (3/4 / 1) * Real.sqrt (1/2 / 1)) ≠ (1/2 : ℝ) := by
  have hy00 : TGenerator.yValue
      (⟨Real.sin, Real.cos, Real.tan, Real.sqrt, Real.pi⟩ : RealOps ℝ)
      ⟨2, 1, 1/2, 0, 0, 1, .sineWave, some 10⟩ 0 = 0 := by
    show (1 : ℝ) * Real.sin (2 * Real.pi * (1/2) / 2 * ((0 : ℕ) : ℝ) + 0) +
      0 = 0
    rw [show 2 * Real.pi * (1/2) / 2 * ((0 : ℕ) : ℝ) + 0 = 0 by
      push_cast; ring]
    rw [Real.sin_zero]
    norm_num
  have hy01 : TGenerator.yValue
      (⟨Real.sin, Real.cos, Real.tan, Real.sqrt, Real.pi⟩ : RealOps ℝ)
      ⟨2, 1, 1/2, 0, 0, 1, .sineWave, some 10⟩ 1 = 1 := by
    show (1 : ℝ) * Real.sin (2 * Real.pi * (1/2) / 2 * ((1 : ℕ) : ℝ) + 0) +
      0 = 1
    rw [show 2 * Real.pi * (1/2) / 2 * ((1 : ℕ) : ℝ) + 0 = Real.pi / 2 by
      push_cast; ring]
    rw [Real.sin_pi_div_two]
    norm_num
  have hy02 : TGenerator.yValue
      (⟨Real.sin, Real.cos, Real.tan, Real.sqrt, Real.pi⟩ : RealOps ℝ)
      ⟨2, 1, 1/2, 0, 0, 1, .sineWave, some 10⟩ 2 = 0 := by
    show (1 : ℝ) * Real.sin (2 * Real.pi * (1/2) / 2 * ((2 : ℕ) : ℝ) + 0) +
      0 = 0
    rw [show 2 * Real.pi * (1/2) / 2 * ((2 : ℕ) : ℝ) + 0 = Real.pi by
      push_cast; ring]
    rw [Real.sin_pi]
    norm_num
  have hy10 : TGenerator.yValue
      (⟨Real.sin, Real.cos, Real.tan, Real.sqrt, Real.pi⟩ : RealOps ℝ)
      ⟨2, 1, 3/2, 0, 0, 1, .sineWave, some 10⟩ 0 = 0 := by
    show (1 : ℝ) * Real.sin (2 * Real.pi * (3/2) / 2 * ((0 : ℕ) : ℝ) + 0) +
      0 = 0
    rw [show 2 * Real.pi * (3/2) / 2 * ((0 : ℕ) : ℝ) + 0 = 0 by
      push_cast; ring]
    rw [Real.sin_zero]
    norm_num
  have hy11 : TGenerator.yValue
      (⟨Real.sin, Real.cos, Real.tan, Real.sqrt, Real.pi⟩ : RealOps ℝ)
      ⟨2, 1, 3/2, 0, 0, 1, .sineWave, some 10⟩ 1 = -1 := by
    show (1 : ℝ) * Real.sin (2 * Real.pi * (3/2) / 2 * ((1 : ℕ) : ℝ) + 0) +
      0 = -1
    rw [show 2 * Real.pi * (3/2) / 2 * ((1 : ℕ) : ℝ) + 0 =
        Real.pi / 2 + Real.pi by push_cast; ring]
    rw [Real.sin_add_pi, Real.sin_pi_div_two]
    norm_num
  have hy12 : TGenerator.yValue
      (⟨Real.sin, Real.cos, Real.tan, Real.sqrt, Real.pi⟩ : RealOps ℝ)
      ⟨2, 1, 3/2, 0, 0, 1, .sineWave, some 10⟩ 2 = 0 := by
    show (1 : ℝ) * Real.sin (2 * Real.pi * (3/2) / 2 * ((2 : ℕ) : ℝ) + 0) +
      0 = 0
    rw [show 2 * Real.pi * (3/2) / 2 * ((2 : ℕ) : ℝ) + 0 =
        Real.pi + 2 * Real.pi by push_cast; ring]
    rw [Real.sin_add_two_pi, Real.sin_pi]
    norm_num
  have hgen0 : TGenerator.execute
      (⟨Real.sin, Real.cos, Real.tan, Real.sqrt, Real.pi⟩ : RealOps ℝ)
      ⟨2, 1, 1/2, 0, 0, 1, .sineWave, some 10⟩ =
      .ok (⟨[⟨0, 0⟩, ⟨1/2, 1⟩, ⟨1, 0⟩],
        ⟨some 2, some 1, some (1/2), some 0, some 0, some 1, 3,
          some (2 * Real.pi), none, none⟩⟩ : TSignalLine ℝ) := by
    rw [generator_execute_eval
      (⟨Real.sin, Real.cos, Real.tan, Real.sqrt, Real.pi⟩ : RealOps ℝ)
      ⟨2, 1, 1/2, 0, 0, 1, .sineWave, some 10⟩ rfl (by norm_num)
      (by norm_num)]
    dsimp only
    rw [pointsCountFrom_2_1]
    rw [Except.ok.injEq, TSignalLine.mk.injEq]
    refine ⟨?_, rfl⟩
    simp only [List.range_succ, List.range_zero, List.nil_append,
      List.cons_append, List.foldl_append, List.foldl_cons, List.foldl_nil,
      List.replicate_succ, List.replicate_zero, List.set_cons_zero,
      List.set_cons_succ]
    rw [hy00, hy01, hy02]
    norm_num
  have hgen1 : TGenerator.execute
      (⟨Real.sin, Real.cos, Real.tan, Real.sqrt, Real.pi⟩ : RealOps ℝ)
      ⟨2, 1, 3/2, 0, 0, 1, .sineWave, some 10⟩ =
      .ok (⟨[⟨0, 0⟩, ⟨1/2, -1⟩, ⟨1, 0⟩],
        ⟨some 2, some 1, some (3/2), some 0, some 0, some 1, 3,
          some (2 * Real.pi), none, none⟩⟩ : TSignalLine ℝ) := by
    rw [generator_execute_eval
      (⟨Real.sin, Real.cos, Real.tan, Real.sqrt, Real.pi⟩ : RealOps ℝ)
      ⟨2, 1, 3/2, 0, 0, 1, .sineWave, some 10⟩ rfl (by norm_num)
      (by norm_num)]
    dsimp only
    rw [pointsCountFrom_2_1]
    rw [Except.ok.injEq, TSignalLine.mk.injEq]
    refine ⟨?_, rfl⟩
    simp only [List.range_succ, List.range_zero, List.nil_append,
      List.cons_append, List.foldl_append, List.foldl_cons, List.foldl_nil,
      List.replicate_succ, List.replicate_zero, List.set_cons_zero,
      List.set_cons_succ]
    rw [hy10, hy11, hy12]
    norm_num
  have hdc0E : TSignalLine.ofCopyWithOffset
      (⟨[⟨0, 0⟩, ⟨1/2, 1⟩, ⟨1, -1⟩],
        ⟨some 2, some 1, some 1, some 0, some 0, some 1, 3, some 1, none,
          none⟩⟩ : TSignalLine ℝ) 0 0 =
      .ok (⟨[⟨0 + 0, 0 + 0⟩, ⟨1/2 + 0, 1 + 0⟩, ⟨1 + 0, -1 + 0⟩],
        ⟨some 2, some 1, some 1, some 0, none, some 1, 3, some 1, none,
          none⟩⟩ : TSignalLine ℝ) := rfl
  have htidy0 : (⟨[⟨0 + 0, 0 + 0⟩, ⟨1/2 + 0, 1 + 0⟩, ⟨1 + 0, -1 + 0⟩],
      ⟨some 2, some 1, some 1, some 0, none, some 1, 3, some 1, none,
        none⟩⟩ : TSignalLine ℝ) =
      (⟨[⟨0, 0⟩, ⟨1/2, 1⟩, ⟨1, -1⟩],
        ⟨some 2, some 1, some 1, some 0, none, some 1, 3, some 1, none,
          none⟩⟩ : TSignalLine ℝ) := by
    rw [TSignalLine.mk.injEq]
    norm_num
  have hdc0 : TSignalLine.ofCopyWithOffset
      (⟨[⟨0, 0⟩, ⟨1/2, 1⟩, ⟨1, -1⟩],
        ⟨some 2, some 1, some 1, some 0, some 0, some 1, 3, some 1, none,
          none⟩⟩ : TSignalLine ℝ) 0 0 =
      .ok (⟨[⟨0, 0⟩, ⟨1/2, 1⟩, ⟨1, -1⟩],
        ⟨some 2, some 1, some 1, some 0, none, some 1, 3, some 1, none,
          none⟩⟩ : TSignalLine ℝ) := by
    rw [hdc0E, htidy0]
  have hmax : TSignalLine.findMaxE
      (⟨[⟨0, 0⟩, ⟨1/2, 1⟩, ⟨1, -1⟩],
        ⟨some 2, some 1, some 1, some 0, none, some 1, 3, some 1, none,
          none⟩⟩ : TSignalLine ℝ) =
      .ok (1, (⟨[⟨0, 0⟩, ⟨1/2, 1⟩, ⟨1, -1⟩],
        ⟨some 2, some 1, some 1, some 0, none, some 1, 3, some 1, some 1,
          none⟩⟩ : TSignalLine ℝ)) := by
    have hfold : List.foldl
        (fun acc (q : Pt ℝ) => if q.y > acc then q.y else acc) 0
        [⟨0, 0⟩, ⟨1/2, 1⟩, ⟨1, -1⟩] = 1 := by
      simp only [List.foldl_cons, List.foldl_nil]
      norm_num
    have h1 : TSignalLine.findMaxE
        (⟨[⟨0, 0⟩, ⟨1/2, 1⟩, ⟨1, -1⟩],
          ⟨some 2, some 1, some 1, some 0, none, some 1, 3, some 1, none,
            none⟩⟩ : TSignalLine ℝ) =
        .ok (List.foldl
            (fun acc (q : Pt ℝ) => if q.y > acc then q.y else acc) 0
            [⟨0, 0⟩, ⟨1/2, 1⟩, ⟨1, -1⟩],
          (⟨[⟨0, 0⟩, ⟨1/2, 1⟩, ⟨1, -1⟩],
            ⟨some 2, some 1, some 1, some 0, none, some 1, 3, some 1,
              some (List.foldl
                (fun acc (q : Pt ℝ) => if q.y > acc then q.y else acc) 0
                [⟨0, 0⟩, ⟨1/2, 1⟩, ⟨1, -1⟩]),
              none⟩⟩ : TSignalLine ℝ)) := rfl
    rw [h1, hfold]
  have hmin : TSignalLine.findMinE
      (⟨[⟨0, 0⟩, ⟨1/2, 1⟩, ⟨1, -1⟩],
        ⟨some 2, some 1, some 1, some 0, none, some 1, 3, some 1, some 1,
          none⟩⟩ : TSignalLine ℝ) =
      .ok (-1, (⟨[⟨0, 0⟩, ⟨1/2, 1⟩, ⟨1, -1⟩],
        ⟨some 2, some 1, some 1, some 0, none, some 1, 3, some 1, some 1,
          some (-1)⟩⟩ : TSignalLine ℝ)) := by
    have hfold : List.foldl
        (fun acc (q : Pt ℝ) => if q.y < acc then q.y else acc) 0
        [⟨0, 0⟩, ⟨1/2, 1⟩, ⟨1, -1⟩] = -1 := by
      simp only [List.foldl_cons, List.foldl_nil]
      norm_num
    have h1 : TSignalLine.findMinE
        (⟨[⟨0, 0⟩, ⟨1/2, 1⟩, ⟨1, -1⟩],
          ⟨some 2, some 1, some 1, some 0, none, some 1, 3, some 1, some 1,
            none⟩⟩ : TSignalLine ℝ) =
        .ok (List.foldl
            (fun acc (q : Pt ℝ) => if q.y < acc then q.y else acc) 0
            [⟨0, 0⟩, ⟨1/2, 1⟩, ⟨1, -1⟩],
          (⟨[⟨0, 0⟩, ⟨1/2, 1⟩, ⟨1, -1⟩],
            ⟨some 2, some 1, some 1, some 0, none, some 1, 3, some 1,
              some 1,
              some (List.foldl
                (fun acc (q : Pt ℝ) => if q.y < acc then q.y else acc) 0
                [⟨0, 0⟩, ⟨1/2, 1⟩, ⟨1, -1⟩])⟩⟩ : TSignalLine ℝ)) := rfl
    rw [h1, hfold]
  have hdcE : TSignalLine.removeDCComponent
      (⟨[⟨0, 0⟩, ⟨1/2, 1⟩, ⟨1, -1⟩],
        ⟨some 2, some 1, some 1, some 0, none, some 1, 3, some 1, none,
          none⟩⟩ : TSignalLine ℝ) (some DEFAULT_INACCURACY) =
      .ok (⟨[⟨0, 0⟩, ⟨1/2, 1⟩, ⟨1, -1⟩],
        ⟨some 2, some 1, some 1, some 0, none, some 1, 3, some 1, some 1,
          some (-1)⟩⟩ : TSignalLine ℝ) := by
    unfold TSignalLine.removeDCComponent
    rw [hmax]
    simp only [ok_bind]
    rw [hmin]
    simp only [ok_bind]
    rw [if_neg (by
      unfold DEFAULT_INACCURACY
      norm_num)]
    rfl
  have heqA : TSignalLine.equalsE
      (⟨[⟨0, 0⟩, ⟨1/2, 1⟩, ⟨1, -1⟩],
        ⟨some 2, some 1, some 1, some 0, none, some 1, 3, some 1, some 1,
          some (-1)⟩⟩ : TSignalLine ℝ)
      (⟨[⟨0, 0⟩, ⟨1/2, 1⟩, ⟨1, 0⟩],
        ⟨some 2, some 1, some (1/2), some 0, some 0, some 1, 3,
          some (2 * Real.pi), none, none⟩⟩ : TSignalLine ℝ)
      (some DEFAULT_INACCURACY) = .ok true :=
    equalsE_true _ _ _ rfl (by norm_num) (by norm_num) (by norm_num)
      (by norm_num) (by norm_num [DEFAULT_INACCURACY])
      (by norm_num [pointD, DEFAULT_INACCURACY])
      (by norm_num [pointD, DEFAULT_INACCURACY])
  have heqD : TSignalLine.equalsE
      (⟨[⟨0, 0⟩, ⟨1/2, 1⟩, ⟨1, -1⟩],
        ⟨some 2, some 1, some 1, some 0, none, some 1, 3, some 1, some 1,
          some (-1)⟩⟩ : TSignalLine ℝ)
      (⟨[⟨0, 0⟩, ⟨1/2, 1⟩, ⟨1, -1⟩],
        ⟨some 2, some 1, some 1, some 0, none, some 1, 3, some 1, some 1,
          some (-1)⟩⟩ : TSignalLine ℝ)
      (some DEFAULT_INACCURACY) = .ok true :=
    equalsE_true _ _ _ rfl (by norm_num) (by norm_num) (by norm_num)
      (by norm_num) (by norm_num [DEFAULT_INACCURACY])
      (by norm_num [pointD, DEFAULT_INACCURACY])
      (by norm_num [pointD, DEFAULT_INACCURACY])
  have heqG0 : TSignalLine.equalsE
      (⟨[⟨0, 0⟩, ⟨1/2, 1⟩, ⟨1, 0⟩],
        ⟨some 2, some 1, some (1/2), some 0, some 0, some 1, 3,
          some (2 * Real.pi), none, none⟩⟩ : TSignalLine ℝ)
      (⟨[⟨0, 0⟩, ⟨1/2, 1⟩, ⟨1, 0⟩],
        ⟨some 2, some 1, some (1/2), some 0, some 0, some 1, 3,
          some (2 * Real.pi), none, none⟩⟩ : TSignalLine ℝ)
      (some DEFAULT_INACCURACY) = .ok true :=
    equalsE_true _ _ _ rfl (by norm_num) (by norm_num) (by norm_num)
      (by norm_num) (by norm_num [DEFAULT_INACCURACY])
      (by norm_num [pointD, DEFAULT_INACCURACY])
      (by norm_num [pointD, DEFAULT_INACCURACY])
  have heqB : TSignalLine.equalsE
      (⟨[⟨0, 0⟩, ⟨1/2, 1⟩, ⟨1, -1⟩],
        ⟨some 2, some 1, some 1, some 0, none, some 1, 3, some 1, some 1,
          some (-1)⟩⟩ : TSignalLine ℝ)
      (⟨[⟨0, 0⟩, ⟨1/2, -1⟩, ⟨1, 0⟩],
        ⟨some 2, some 1, some (3/2), some 0, some 0, some 1, 3,
          some (2 * Real.pi), none, none⟩⟩ : TSignalLine ℝ)
      (some DEFAULT_INACCURACY) = .ok true :=
    equalsE_true _ _ _ rfl (by norm_num) (by norm_num) (by norm_num)
      (by norm_num) (by norm_num [DEFAULT_INACCURACY])
      (by norm_num [pointD, DEFAULT_INACCURACY])
      (by norm_num [pointD, DEFAULT_INACCURACY])
  have heqG1 : TSignalLine.equalsE
      (⟨[⟨0, 0⟩, ⟨1/2, -1⟩, ⟨1, 0⟩],
        ⟨some 2, some 1, some (3/2), some 0, some 0, some 1, 3,
          some (2 * Real.pi), none, none⟩⟩ : TSignalLine ℝ)
      (⟨[⟨0, 0⟩, ⟨1/2, -1⟩, ⟨1, 0⟩],
        ⟨some 2, some 1, some (3/2), some 0, some 0, some 1, 3,
          some (2 * Real.pi), none, none⟩⟩ : TSignalLine ℝ)
      (some DEFAULT_INACCURACY) = .ok true :=
    equalsE_true _ _ _ rfl (by norm_num) (by norm_num) (by norm_num)
      (by norm_num) (by norm_num [DEFAULT_INACCURACY])
      (by norm_num [pointD, DEFAULT_INACCURACY])
      (by norm_num [pointD, DEFAULT_INACCURACY])
  have hprod0 : TMultiplier.execute
      (some (⟨[⟨0, 0⟩, ⟨1/2, 1⟩, ⟨1, -1⟩],
        ⟨some 2, some 1, some 1, some 0, none, some 1, 3, some 1, some 1,
          some (-1)⟩⟩ : TSignalLine ℝ))
      (some (⟨[⟨0, 0⟩, ⟨1/2, 1⟩, ⟨1, 0⟩],
        ⟨some 2, some 1, some (1/2), some 0, some 0, some 1, 3,
          some (2 * Real.pi), none, none⟩⟩ : TSignalLine ℝ))
      (some DEFAULT_INACCURACY) =
      .ok (⟨[⟨0, 0⟩, ⟨1/2, 1⟩, ⟨1, 0⟩],
        ⟨some 2, some 1, some 1, some 0, none, some 1, 3, some 1, some 1,
          some (-1)⟩⟩ : TSignalLine ℝ) := by
    rw [multiplier_eval _ _ _ 1 2 heqA rfl rfl (by norm_num) (by norm_num)
      (by rw [pointsCountFrom_2_1]) (by norm_num) (by norm_num)]
    rw [pointsCountFrom_2_1]
    rw [Except.ok.injEq, TSignalLine.mk.injEq]
    refine ⟨?_, rfl⟩
    show ([⟨0, (0 : ℝ) * 0⟩, ⟨1/2, 1 * 1⟩, ⟨1, -1 * 0⟩] : List (Pt ℝ)) =
      [⟨0, 0⟩, ⟨1/2, 1⟩, ⟨1, 0⟩]
    norm_num
  have hprodD : TMultiplier.execute
      (some (⟨[⟨0, 0⟩, ⟨1/2, 1⟩, ⟨1, -1⟩],
        ⟨some 2, some 1, some 1, some 0, none, some 1, 3, some 1, some 1,
          some (-1)⟩⟩ : TSignalLine ℝ))
      (some (⟨[⟨0, 0⟩, ⟨1/2, 1⟩, ⟨1, -1⟩],
        ⟨some 2, some 1, some 1, some 0, none, some 1, 3, some 1, some 1,
          some (-1)⟩⟩ : TSignalLine ℝ))
      (some DEFAULT_INACCURACY) =
      .ok (⟨[⟨0, 0⟩, ⟨1/2, 1⟩, ⟨1, 1⟩],
        ⟨some 2, some 1, some 1, some 0, none, some 1, 3, some 1, some 1,
          some (-1)⟩⟩ : TSignalLine ℝ) := by
    rw [multiplier_eval _ _ _ 1 2 heqD rfl rfl (by norm_num) (by norm_num)
      (by rw [pointsCountFrom_2_1]) (by norm_num) (by norm_num)]
    rw [pointsCountFrom_2_1]
    rw [Except.ok.injEq, TSignalLine.mk.injEq]
    refine ⟨?_, rfl⟩
    show ([⟨0, (0 : ℝ) * 0⟩, ⟨1/2, 1 * 1⟩, ⟨1, -1 * -1⟩] : List (Pt ℝ)) =
      [⟨0, 0⟩, ⟨1/2, 1⟩, ⟨1, 1⟩]
    norm_num
  have hprodG0 : TMultiplier.execute
      (some (⟨[⟨0, 0⟩, ⟨1/2, 1⟩, ⟨1, 0⟩],
        ⟨some 2, some 1, some (1/2), some 0, some 0, some 1, 3,
          some (2 * Real.pi), none, none⟩⟩ : TSignalLine ℝ))
      (some (⟨[⟨0, 0⟩, ⟨1/2, 1⟩, ⟨1, 0⟩],
        ⟨some 2, some 1, some (1/2), some 0, some 0, some 1, 3,
          some (2 * Real.pi), none, none⟩⟩ : TSignalLine ℝ))
      (some DEFAULT_INACCURACY) =
      .ok (⟨[⟨0, 0⟩, ⟨1/2, 1⟩, ⟨1, 0⟩],
        ⟨some 2, some 1, some (1/2), some 0, some 0, some 1, 3,
          some (2 * Real.pi), none, none⟩⟩ : TSignalLine ℝ) := by
    rw [multiplier_eval _ _ _ 1 2 heqG0 rfl rfl (by norm_num) (by norm_num)
      (by rw [pointsCountFrom_2_1]) (by norm_num) (by norm_num)]
    rw [pointsCountFrom_2_1]
    rw [Except.ok.injEq, TSignalLine.mk.injEq]
    refine ⟨?_, rfl⟩
    show ([⟨0, (0 : ℝ) * 0⟩, ⟨1/2, 1 * 1⟩, ⟨1, 0 * 0⟩] : List (Pt ℝ)) =
      [⟨0, 0⟩, ⟨1/2, 1⟩, ⟨1, 0⟩]
    norm_num
  have hprod1 : TMultiplier.execute
      (some (⟨[⟨0, 0⟩, ⟨1/2, 1⟩, ⟨1, -1⟩],
        ⟨some 2, some 1, some 1, some 0, none, some 1, 3, some 1, some 1,
          some (-1)⟩⟩ : TSignalLine ℝ))
      (some (⟨[⟨0, 0⟩, ⟨1/2, -1⟩, ⟨1, 0⟩],
        ⟨some 2, some 1, some (3/2), some 0, some 0, some 1, 3,
          some (2 * Real.pi), none, none⟩⟩ : TSignalLine ℝ))
      (some DEFAULT_INACCURACY) =
      .ok (⟨[⟨0, 0⟩, ⟨1/2, -1⟩, ⟨1, 0⟩],
        ⟨some 2, some 1, some 1, some 0, none, some 1, 3, some 1, some 1,
          some (-1)⟩⟩ : TSignalLine ℝ) := by
    rw [multiplier_eval _ _ _ 1 2 heqB rfl rfl (by norm_num) (by norm_num)
      (by rw [pointsCountFrom_2_1]) (by norm_num) (by norm_num)]
    rw [pointsCountFrom_2_1]
    rw [Except.ok.injEq, TSignalLine.mk.injEq]
    refine ⟨?_, rfl⟩
    show ([⟨0, (0 : ℝ) * 0⟩, ⟨1/2, 1 * -1⟩, ⟨1, -1 * 0⟩] : List (Pt ℝ)) =
      [⟨0, 0⟩, ⟨1/2, -1⟩, ⟨1, 0⟩]
    norm_num
  have hprodG1 : TMultiplier.execute
      (some (⟨[⟨0, 0⟩, ⟨1/2, -1⟩, ⟨1, 0⟩],
        ⟨some 2, some 1, some (3/2), some 0, some 0, some 1, 3,
          some (2 * Real.pi), none, none⟩⟩ : TSignalLine ℝ))
      (some (⟨[⟨0, 0⟩, ⟨1/2, -1⟩, ⟨1, 0⟩],
        ⟨some 2, some 1, some (3/2), some 0, some 0, some 1, 3,
          some (2 * Real.pi), none, none⟩⟩ : TSignalLine ℝ))
      (some DEFAULT_INACCURACY) =
      .ok (⟨[⟨0, 0⟩, ⟨1/2, 1⟩, ⟨1, 0⟩],
        ⟨some 2, some 1, some (3/2), some 0, some 0, some 1, 3,
          some (2 * Real.pi), none, none⟩⟩ : TSignalLine ℝ) := by
    rw [multiplier_eval _ _ _ 1 2 heqG1 rfl rfl (by norm_num) (by norm_num)
      (by rw [pointsCountFrom_2_1]) (by norm_num) (by norm_num)]
    rw [pointsCountFrom_2_1]
    rw [Except.ok.injEq, TSignalLine.mk.injEq]
    refine ⟨?_, rfl⟩
    show ([⟨0, (0 : ℝ) * 0⟩, ⟨1/2, -1 * -1⟩, ⟨1, 0 * 0⟩] : List (Pt ℝ)) =
      [⟨0, 0⟩, ⟨1/2, 1⟩, ⟨1, 0⟩]
    norm_num
  have hint0 : TIntegrator.execute
      (some (⟨[⟨0, 0⟩, ⟨1/2, 1⟩, ⟨1, 0⟩],
        ⟨some 2, some 1, some 1, some 0, none, some 1, 3, some 1, some 1,
          some (-1)⟩⟩ : TSignalLine ℝ)) .trapezoidal = .ok (1/2) := by
    have h1 : TIntegrator.execute
        (some (⟨[⟨0, 0⟩, ⟨1/2, 1⟩, ⟨1, 0⟩],
          ⟨some 2, some 1, some 1, some 0, none, some 1, 3, some 1, some 1,
            some (-1)⟩⟩ : TSignalLine ℝ)) .trapezoidal =
        .ok (0 + ((0 : ℝ) + 1) / 2 * (1/2 - 0) + (1 + 0) / 2 * (1 - 1/2)) :=
      rfl
    rw [h1, Except.ok.injEq]
    norm_num
  have hintD : TIntegrator.execute
      (some (⟨[⟨0, 0⟩, ⟨1/2, 1⟩, ⟨1, 1⟩],
        ⟨some 2, some 1, some 1, some 0, none, some 1, 3, some 1, some 1,
          some (-1)⟩⟩ : TSignalLine ℝ)) .trapezoidal = .ok (3/4) := by
    have h1 : TIntegrator.execute
        (some (⟨[⟨0, 0⟩, ⟨1/2, 1⟩, ⟨1, 1⟩],
          ⟨some 2, some 1, some 1, some 0, none, some 1, 3, some 1, some 1,
            some (-1)⟩⟩ : TSignalLine ℝ)) .trapezoidal =
        .ok (0 + ((0 : ℝ) + 1) / 2 * (1/2 - 0) + (1 + 1) / 2 * (1 - 1/2)) :=
      rfl
    rw [h1, Except.ok.injEq]
    norm_num
  have hintG0 : TIntegrator.execute
      (some (⟨[⟨0, 0⟩, ⟨1/2, 1⟩, ⟨1, 0⟩],
        ⟨some 2, some 1, some (1/2), some 0, some 0, some 1, 3,
          some (2 * Real.pi), none, none⟩⟩ : TSignalLine ℝ)) .trapezoidal =
      .ok (1/2) := by
    have h1 : TIntegrator.execute
        (some (⟨[⟨0, 0⟩, ⟨1/2, 1⟩, ⟨1, 0⟩],
          ⟨some 2, some 1, some (1/2), some 0, some 0, some 1, 3,
            some (2 * Real.pi), none, none⟩⟩ : TSignalLine ℝ))
          .trapezoidal =
        .ok (0 + ((0 : ℝ) + 1) / 2 * (1/2 - 0) + (1 + 0) / 2 * (1 - 1/2)) :=
      rfl
    rw [h1, Except.ok.injEq]
    norm_num
  have hint1 : TIntegrator.execute
      (some (⟨[⟨0, 0⟩, ⟨1/2, -1⟩, ⟨1, 0⟩],
        ⟨some 2, some 1, some 1, some 0, none, some 1, 3, some 1, some 1,
          some (-1)⟩⟩ : TSignalLine ℝ)) .trapezoidal = .ok (-(1/2)) := by
    have h1 : TIntegrator.execute
        (some (⟨[⟨0, 0⟩, ⟨1/2, -1⟩, ⟨1, 0⟩],
          ⟨some 2, some 1, some 1, some 0, none, some 1, 3, some 1, some 1,
            some (-1)⟩⟩ : TSignalLine ℝ)) .trapezoidal =
        .ok (0 + ((0 : ℝ) + -1) / 2 * (1/2 - 0) +
          (-1 + 0) / 2 * (1 - 1/2)) := rfl
    rw [h1, Except.ok.injEq]
    norm_num
  have hintG1 : TIntegrator.execute
      (some (⟨[⟨0, 0⟩, ⟨1/2, 1⟩, ⟨1, 0⟩],
        ⟨some 2, some 1, some (3/2), some 0, some 0, some 1, 3,
          some (2 * Real.pi), none, none⟩⟩ : TSignalLine ℝ)) .trapezoidal =
      .ok (1/2) := by
    have h1 : TIntegrator.execute
        (some (⟨[⟨0, 0⟩, ⟨1/2, 1⟩, ⟨1, 0⟩],
          ⟨some 2, some 1, some (3/2), some 0, some 0, some 1, 3,
            some (2 * Real.pi), none, none⟩⟩ : TSignalLine ℝ))
          .trapezoidal =
        .ok (0 + ((0 : ℝ) + 1) / 2 * (1/2 - 0) + (1 + 0) / 2 * (1 - 1/2)) :=
      rfl
    rw [h1, Except.ok.injEq]
    norm_num
  have hrmsD : TRMS.execute
      (⟨Real.sin, Real.cos, Real.tan, Real.sqrt, Real.pi⟩ : RealOps ℝ)
      (some (⟨[⟨0, 0⟩, ⟨1/2, 1⟩, ⟨1, -1⟩],
        ⟨some 2, some 1, some 1, some 0, none, some 1, 3, some 1, some 1,
          some (-1)⟩⟩ : TSignalLine ℝ)) =
      .ok (Real.sqrt (3/4 / 1)) :=
    rms_eval _ _ _ 1 (3/4) rfl hprodD hintD
  have hrmsG0 : TRMS.execute
      (⟨Real.sin, Real.cos, Real.tan, Real.sqrt, Real.pi⟩ : RealOps ℝ)
      (some (⟨[⟨0, 0⟩, ⟨1/2, 1⟩, ⟨1, 0⟩],
        ⟨some 2, some 1, some (1/2), some 0, some 0, some 1, 3,
          some (2 * Real.pi), none, none⟩⟩ : TSignalLine ℝ)) =
      .ok (Real.sqrt (1/2 / 1)) :=
    rms_eval _ _ _ 1 (1/2) rfl hprodG0 hintG0
  have hrmsG1 : TRMS.execute
      (⟨Real.sin, Real.cos, Real.tan, Real.sqrt, Real.pi⟩ : RealOps ℝ)
      (some (⟨[⟨0, 0⟩, ⟨1/2, -1⟩, ⟨1, 0⟩],
        ⟨some 2, some 1, some (3/2), some 0, some 0, some 1, 3,
          some (2 * Real.pi), none, none⟩⟩ : TSignalLine ℝ)) =
      .ok (Real.sqrt (1/2 / 1)) :=
    rms_eval _ _ _ 1 (1/2) rfl hprodG1 hintG1
  have hcorr0 : TCorrelator.execute
      (⟨Real.sin, Real.cos, Real.tan, Real.sqrt, Real.pi⟩ : RealOps ℝ)
      (some (⟨[⟨0, 0⟩, ⟨1/2, 1⟩, ⟨1, -1⟩],
        ⟨some 2, some 1, some 1, some 0, none, some 1, 3, some 1, some 1,
          some (-1)⟩⟩ : TSignalLine ℝ))
      (some (⟨[⟨0, 0⟩, ⟨1/2, 1⟩, ⟨1, 0⟩],
        ⟨some 2, some 1, some (1/2), some 0, some 0, some 1, 3,
          some (2 * Real.pi), none, none⟩⟩ : TSignalLine ℝ))
      (some true) =
      .ok (1/2 / 1 / (Real.sqrt (3/4 / 1) * Real.sqrt (1/2 / 1))) :=
    correlator_eval_true _ _ _ _ 1 1 (1/2) (Real.sqrt (3/4 / 1))
      (Real.sqrt (1/2 / 1)) rfl rfl hprod0 hint0 hrmsD hrmsG0
  have hcorr1 : TCorrelator.execute
      (⟨Real.sin, Real.cos, Real.tan, Real.sqrt, Real.pi⟩ : RealOps ℝ)
      (some (⟨[⟨0, 0⟩, ⟨1/2, 1⟩, ⟨1, -1⟩],
        ⟨some 2, some 1, some 1, some 0, none, some 1, 3, some 1, some 1,
          some (-1)⟩⟩ : TSignalLine ℝ))
      (some (⟨[⟨0, 0⟩, ⟨1/2, -1⟩, ⟨1, 0⟩],
        ⟨some 2, some 1, some (3/2), some 0, some 0, some 1, 3,
          some (2 * Real.pi), none, none⟩⟩ : TSignalLine ℝ))
      (some true) =
      .ok (-(1/2) / 1 / (Real.sqrt (3/4 / 1) * Real.sqrt (1/2 / 1))) :=
    correlator_eval_true _ _ _ _ 1 1 (-(1/2)) (Real.sqrt (3/4 / 1))
      (Real.sqrt (1/2 / 1)) rfl rfl hprod1 hint1 hrmsD hrmsG1
  have hgen0raw : TGenerator.execute
      (⟨Real.sin, Real.cos, Real.tan, Real.sqrt, Real.pi⟩ : RealOps ℝ)
      ⟨2, 1, 1/2 + ((0 : ℕ) : ℝ) * 1, 0, 0, 1, .sineWave, some 10⟩ =
      .ok (⟨[⟨0, 0⟩, ⟨1/2, 1⟩, ⟨1, 0⟩],
        ⟨some 2, some 1, some (1/2), some 0, some 0, some 1, 3,
          some (2 * Real.pi), none, none⟩⟩ : TSignalLine ℝ) := by
    rw [show (⟨2, 1, 1/2 + ((0 : ℕ) : ℝ) * 1, 0, 0, 1, .sineWave,
        some 10⟩ : TGeneratorParams ℝ) =
        ⟨2, 1, 1/2, 0, 0, 1, .sineWave, some 10⟩ by
      rw [TGeneratorParams.mk.injEq]
      norm_num]
    exact hgen0
  have hgen1raw : TGenerator.execute
      (⟨Real.sin, Real.cos, Real.tan, Real.sqrt, Real.pi⟩ : RealOps ℝ)
      ⟨2, 1, 1/2 + ((1 : ℕ) : ℝ) * 1, 0, 0, 1, .sineWave, some 10⟩ =
      .ok (⟨[⟨0, 0⟩, ⟨1/2, -1⟩, ⟨1, 0⟩],
        ⟨some 2, some 1, some (3/2), some 0, some 0, some 1, 3,
          some (2 * Real.pi), none, none⟩⟩ : TSignalLine ℝ) := by
    rw [show (⟨2, 1, 1/2 + ((1 : ℕ) : ℝ) * 1, 0, 0, 1, .sineWave,
        some 10⟩ : TGeneratorParams ℝ) =
        ⟨2, 1, 3/2, 0, 0, 1, .sineWave, some 10⟩ by
      rw [TGeneratorParams.mk.injEq]
      norm_num]
    exact hgen1
  have hsl0E : TSignalLine.ofSamplingAndDuration
      (((Int.ceil (((1 : ℝ) - 1/2) / 1) : ℤ)) : ℝ) 1 (some 1) (some 0)
      (some 0) (some 1) (some 1) =
      .ok (⟨[⟨0, 0⟩, ⟨0, 0⟩],
        ⟨some 1, some 1, some 1, some 0, some 0, some 1, 2, some 1, none,
          none⟩⟩ : TSignalLine ℝ) := by
    rw [show (Int.ceil (((1 : ℝ) - 1/2) / 1) : ℤ) = 1 by
      rw [show ((1 : ℝ) - 1/2) / 1 = 1/2 by norm_num]
      rw [Int.ceil_eq_iff] <;> norm_num]
    rw [show (((1 : ℤ)) : ℝ) = 1 by norm_num]
    unfold TSignalLine.ofSamplingAndDuration
    rw [if_neg (by norm_num), if_neg (by norm_num)]
    rw [pointsCountFrom_1_1]
    rfl
  have hne : 1/2 / 1 / (Real.sqrt (3/4 / 1) * Real.sqrt (1/2 / 1)) ≠
      (1/2 : ℝ) := by
    have hs : Real.sqrt (3/4 / 1) * Real.sqrt (1/2 / 1) =
        Real.sqrt (3/8 : ℝ) := by
      rw [show (3 : ℝ)/4/1 = 3/4 by norm_num,
        show (1 : ℝ)/2/1 = 1/2 by norm_num,
        ← Real.sqrt_mul (by norm_num)]
      norm_num
    have hpos : 0 < Real.sqrt (3/8 : ℝ) := Real.sqrt_pos.mpr (by norm_num)
    have hlt1 : Real.sqrt (3/8 : ℝ) < 1 := by
      rw [show (1 : ℝ) = Real.sqrt 1 by simp]
      exact Real.sqrt_lt_sqrt (by norm_num) (by norm_num)
    intro heq
    rw [hs, div_one, div_eq_iff (ne_of_gt hpos)] at heq
    nlinarith [heq, hlt1, hpos]
  refine ⟨?_, hdc0, hdcE, hgen0, ?_, hne⟩
  · unfold TFrequencyAnalyzer.run
    rw [if_neg (by norm_num : ¬ (1 : ℝ) ≤ 1/2)]
    dsimp only
    rw [hsl0E]
    simp only [ok_bind]
    rw [hdc0]
    simp only [ok_bind]
    rw [hdcE]
    simp only [ok_bind]
    rw [foldlM_writes (List.range 2) _ (fun i => i)
      (fun i => ⟨1/2 + (i : ℝ) * 1,
        if i = 0 then
          1/2 / 1 / (Real.sqrt (3/4 / 1) * Real.sqrt (1/2 / 1))
        else -(1/2) / 1 / (Real.sqrt (3/4 / 1) * Real.sqrt (1/2 / 1))⟩)
      (⟨[⟨0, 0⟩, ⟨0, 0⟩],
        ⟨some 1, some 1, some 1, some 0, some 0, some 1, 2, some 1, none,
          none⟩⟩ : TSignalLine ℝ)
      (by
        intro acc i hi _ _
        rw [List.mem_range] at hi
        interval_cases i
        · dsimp only
          rw [hgen0raw]
          simp only [ok_bind]
          rw [hcorr0]
          simp only [ok_bind]
          rfl
        · dsimp only
          rw [hgen1raw]
          simp only [ok_bind]
          rw [hcorr1]
          simp only [ok_bind]
          rfl)
      (by
        intro i hi
        rw [List.mem_range] at hi
        simpa using hi)]
    rw [Except.ok.injEq, TSignalLine.mk.injEq]
    refine ⟨?_, rfl⟩
    show ([⟨1/2 + ((0 : ℕ) : ℝ) * 1,
        1/2 / 1 / (Real.sqrt (3/4 / 1) * Real.sqrt (1/2 / 1))⟩,
      ⟨1/2 + ((1 : ℕ) : ℝ) * 1,
        -(1/2) / 1 / (Real.sqrt (3/4 / 1) * Real.sqrt (1/2 / 1))⟩] :
        List (Pt ℝ)) =
      [⟨1/2, 1/2 / 1 / (Real.sqrt (3/4 / 1) * Real.sqrt (1/2 / 1))⟩,
       ⟨3/2, -(1/2) / 1 / (Real.sqrt (3/4 / 1) * Real.sqrt (1/2 / 1))⟩]
    norm_num
  · have h := correlator_eval_false
      (⟨Real.sin, Real.cos, Real.tan, Real.sqrt, Real.pi⟩ : RealOps ℝ)
      (⟨[⟨0, 0⟩, ⟨1/2, 1⟩, ⟨1, -1⟩],
        ⟨some 2, some 1, some 1, some 0, none, some 1, 3, some 1, some 1,
          some (-1)⟩⟩ : TSignalLine ℝ)
      (⟨[⟨0, 0⟩, ⟨1/2, 1⟩, ⟨1, 0⟩],
        ⟨some 2, some 1, some (1/2), some 0, some 0, some 1, 3,
          some (2 * Real.pi), none, none⟩⟩ : TSignalLine ℝ)
      (⟨[⟨0, 0⟩, ⟨1/2, 1⟩, ⟨1, 0⟩],
        ⟨some 2, some 1, some 1, some 0, none, some 1, 3, some 1, some 1,
          some (-1)⟩⟩ : TSignalLine ℝ)
      1 1 (1/2) rfl rfl hprod0 hint0
    rw [show (1 : ℝ)/2/1 = 1/2 by norm_num] at h
    exact h

end SigProc
